import Mathlib

/-!
Verification development for the Dcare daycare administration application.

The file shallowly embeds the parts of the code that the specification's
claims are about: the rows of the `payments`, `children` and `daily_records`
tables, the attendance and payment UI handlers (the `Children` page, the
`ChildProfile` page, and the `TodaysPayment` page variants), the
`daily-attendance-reset` serverless rollover function, the partial debt
settlement routine of the child profile page, and the age recomputation
helper.  Monetary values are rationals, calendar dates and timestamps are
natural numbers, and the database tables are lists of rows; row ids are
natural numbers handed out from a `nextId` counter where the database would
generate them.
-/

namespace Dcare

/-- Attendance status values allowed by the `payments.attendance_status`
check constraint: `present`, `absent` or `pending`. -/
inductive AttStatus
  | present
  | absent
  | pending
  deriving DecidableEq

/-- Payment status values allowed by the (amended) `payments.status` check
constraint: `paid`, `unpaid` or `pending`. -/
inductive PayStatus
  | paid
  | unpaid
  | pending
  deriving DecidableEq

/-- The attendance button pressed in the UI: `present` or `absent`. -/
inductive AttInput
  | present
  | absent
  deriving DecidableEq

/-- The payment button pressed in the UI: `paid` or `unpaid`. -/
inductive PayInput
  | paid
  | unpaid
  deriving DecidableEq

/-- One row of the `payments` table (the per-child per-day attendance and
payment record).  `arrival_time` is an optional timestamp, `note` an optional
free-text diagnostic. -/
structure PaymentRow where
  id : Nat
  child_id : Nat
  amount : ℚ
  payment_date : Nat
  status : PayStatus
  note : Option String
  attendance_status : AttStatus
  arrival_time : Option Nat
  debt_amount : ℚ
  can_undo : Bool
  deriving DecidableEq

/-- The fields of a `children` table row that the embedded handlers read:
the id and the two fee columns (`amount_charged` from the original schema,
`payment_amount` added by the later migration). -/
structure ChildRow where
  id : Nat
  amount_charged : ℚ
  payment_amount : ℚ
  deriving DecidableEq

/-- One row of the `daily_records` tracking table, which carries the
composite unique constraint `UNIQUE(child_id, record_date)`. -/
structure DailyRecordRow where
  child_id : Nat
  record_date : Nat
  attendance_marked : Bool
  payment_marked : Bool
  deriving DecidableEq

/-- The persistent state the handlers operate on: the three tables plus the
counter used to model database id generation for inserted payment rows. -/
structure Store where
  children : List ChildRow
  payments : List PaymentRow
  daily_records : List DailyRecordRow
  nextId : Nat
  deriving DecidableEq

/-- The rows of a payments list matching child `cid` and calendar date `d` —
the result set of the handlers' `eq("child_id", ...)·eq("payment_date", ...)`
queries. -/
def paymentsFor (l : List PaymentRow) (cid d : Nat) : List PaymentRow :=
  l.filter fun r => r.child_id == cid && r.payment_date == d

/-- A default payment row, used only as the `List.getD` fallback when
stating positional frame properties. -/
def defaultRow : PaymentRow :=
  { id := 0, child_id := 0, amount := 0, payment_date := 0,
    status := .pending, note := none, attendance_status := .pending,
    arrival_time := none, debt_amount := 0, can_undo := true }

/-- The age unit of a child's declared age. -/
inductive AgeUnit
  | months
  | years
  deriving DecidableEq

/-- A (value, unit) age descriptor, as returned by `calculateCurrentAge`. -/
structure AgeData where
  value : Nat
  unit : AgeUnit
  deriving DecidableEq

/-- Errors surfaced by the handlers (via destructive toasts / early returns):
`preconditionFailed` is the "Please mark attendance first" rejection,
`alreadyRecorded` the profile page's "Attendance already marked for today"
rejection, `invalidAmount` the partial-payment rejections, and `queryFailed`
a thrown query error (e.g. `maybeSingle` on several rows). -/
inductive DcError
  | preconditionFailed
  | alreadyRecorded
  | invalidAmount
  | queryFailed
  deriving DecidableEq

/-- Conversion of the pressed attendance button to the stored status. -/
def AttInput.toStatus : AttInput → AttStatus
  | .present => .present
  | .absent => .absent

/-- Conversion of the pressed payment button to the stored status. -/
def PayInput.toStatus : PayInput → PayStatus
  | .paid => .paid
  | .unpaid => .unpaid

/-- The note text the attendance handlers write: `Child arrived at <time>`
when marking present, `Child did not report` when marking absent. -/
def noteFor (status : AttInput) (now : Nat) : String :=
  match status with
  | .present => "Child arrived at " ++ toString now
  | .absent => "Child did not report"

/-- The `data` field of a `.single()` / `.maybeSingle()` query over the
result set `l`: a row exactly when the set has exactly one row, otherwise
`none` (zero rows yield null data; several rows yield an error and null
data). -/
def singleData (l : List PaymentRow) : Option PaymentRow :=
  match l with
  | [r] => some r
  | _ => none

/-- Postgres-style upsert into `daily_records` with
`onConflict: "child_id,record_date"`: replace the conflicting row's tracked
columns if one exists, insert otherwise. -/
def upsertDaily (l : List DailyRecordRow) (row : DailyRecordRow) :
    List DailyRecordRow :=
  if l.any fun r => r.child_id == row.child_id && r.record_date == row.record_date then
    l.map fun r =>
      if r.child_id == row.child_id && r.record_date == row.record_date then row else r
  else
    l ++ [row]

/-- Number of `daily_records` rows for (child `c`, date `d`) — the quantity
the composite unique constraint `UNIQUE(child_id, record_date)` bounds by 1. -/
def countDaily (l : List DailyRecordRow) (c d : Nat) : Nat :=
  (l.filter fun r => r.child_id == c && r.record_date == d).length

namespace ChildrenPage

/-- Embedding of `handleAttendance` from `src/pages/Children.tsx` (second
page variant, lines 539-610).  It looks today's record up with
`maybeSingle`; if exactly one row exists it updates that row's
`attendance_status`, `arrival_time` and `note`, otherwise it inserts a fresh
row with `status = "pending"` and `amount = debt_amount = |amount|`.
Returns the new payments list and the new id counter. -/
def handleAttendance (st : List PaymentRow) (nextId : Nat)
    (childId today now : Nat) (status : AttInput) (paymentAmount : ℚ) :
    List PaymentRow × Nat :=
  let amount : ℚ := if status = .present then paymentAmount else 0
  let note := noteFor status now
  match singleData (paymentsFor st childId today) with
  | some existingRecord =>
    (st.map fun p =>
      if p.id = existingRecord.id then
        { p with attendance_status := status.toStatus,
                 arrival_time := if status = .present then some now else none,
                 note := some note }
      else p, nextId)
  | none =>
    (st ++ [{ id := nextId, child_id := childId, amount := |amount|,
              payment_date := today, status := .pending, note := some note,
              attendance_status := status.toStatus,
              arrival_time := if status = .present then some now else none,
              debt_amount := |amount|, can_undo := true }], nextId + 1)

/-- Embedding of `handlePayment` from `src/pages/Children.tsx` (second page
variant, lines 612-665).  It fetches today's record with `.single()`; with
null data it rejects with "Please mark attendance first", otherwise it sets
`status` and `debt_amount` (0 when paid, the passed amount when unpaid) on
the row, with no check of attendance or of the previous payment status. -/
def handlePayment (st : List PaymentRow) (childId today : Nat)
    (status : PayInput) (paymentAmount : ℚ) :
    Except DcError (List PaymentRow) :=
  match singleData (paymentsFor st childId today) with
  | none => .error .preconditionFailed
  | some existingPayment =>
    .ok (st.map fun p =>
      if p.id = existingPayment.id then
        { p with status := status.toStatus,
                 debt_amount := if status = .paid then 0 else paymentAmount }
      else p)

end ChildrenPage

namespace ProfilePage

/-- Embedding of `handleQuickAttendance` from `src/pages/ChildProfile.tsx`
(lines 132-202).  If the `maybeSingle` lookup returns a row it rejects with
"Attendance already marked for today"; otherwise (zero rows, or several rows
whose error is swallowed leaving null data) it inserts a fresh row with
`status = "unpaid"`, `amount = debt_amount` = the fee when present else 0,
and upserts the `daily_records` tracking row. -/
def handleQuickAttendance (s : Store) (child : ChildRow) (today now : Nat)
    (status : AttInput) : Except DcError Store :=
  match singleData (paymentsFor s.payments child.id today) with
  | some _ => .error .alreadyRecorded
  | none =>
    let amount : ℚ := if status = .present then child.amount_charged else 0
    .ok { s with
          payments := s.payments ++
            [{ id := s.nextId, child_id := child.id, amount := amount,
               payment_date := today, status := .unpaid,
               note := some (noteFor status now),
               attendance_status := status.toStatus,
               arrival_time := if status = .present then some now else none,
               debt_amount := amount, can_undo := true }],
          daily_records := upsertDaily s.daily_records
            { child_id := child.id, record_date := today,
              attendance_marked := true, payment_marked := false },
          nextId := s.nextId + 1 }

end ProfilePage

namespace TodaysPayment

/-- Embedding of `handleAttendance` from the `TodaysPayment` page
(`src/unnamed/part_000`, lines 147-199): it inserts a payments row
unconditionally — no lookup, no uniqueness check — with `status = "unpaid"`,
`amount = debt_amount` = the fee when present else 0, and upserts the
`daily_records` tracking row. -/
def handleAttendance (s : Store) (child : ChildRow) (today now : Nat)
    (status : AttInput) : Store :=
  let amount : ℚ := if status = .present then child.amount_charged else 0
  { s with
    payments := s.payments ++
      [{ id := s.nextId, child_id := child.id, amount := amount,
         payment_date := today, status := .unpaid,
         note := some (noteFor status now),
         attendance_status := status.toStatus,
         arrival_time := if status = .present then some now else none,
         debt_amount := amount, can_undo := true }],
    daily_records := upsertDaily s.daily_records
      { child_id := child.id, record_date := today,
        attendance_marked := true, payment_marked := false },
    nextId := s.nextId + 1 }

/-- Embedding of `handlePayment` from the `TodaysPayment` page
(`src/unnamed/part_000`, lines 201-256).  A thrown `maybeSingle` error
(several rows) aborts; zero rows reject with "Please mark attendance first";
otherwise the row's `status` and `debt_amount` (0 when paid, the child's
`amount_charged` when unpaid) are set — again with no check of attendance or
of the previous payment status — and the tracking row's `payment_marked` is
set. -/
def handlePayment (s : Store) (child : ChildRow) (today : Nat)
    (status : PayInput) : Except DcError Store :=
  match paymentsFor s.payments child.id today with
  | [] => .error .preconditionFailed
  | [existingPayment] =>
    .ok { s with
          payments := s.payments.map fun p =>
            if p.id = existingPayment.id then
              { p with status := status.toStatus,
                       debt_amount := if status = .paid then 0
                                      else child.amount_charged }
            else p,
          daily_records := s.daily_records.map fun r =>
            if r.child_id == child.id && r.record_date == today then
              { r with payment_marked := true }
            else r }
  | _ => .error .queryFailed

/-- Embedding of `handleUndo` from the `TodaysPayment` page
(`src/unnamed/part_000`, lines 258-291): it deletes every payments row and
every daily_records row for (child, today).  The handler takes no date
argument — it always targets the current date — and succeeds whether or not
any row existed. -/
def handleUndo (s : Store) (childId today : Nat) : Store :=
  { s with
    payments := s.payments.filter fun r =>
      !(r.child_id == childId && r.payment_date == today),
    daily_records := s.daily_records.filter fun r =>
      !(r.child_id == childId && r.record_date == today) }

end TodaysPayment

namespace Reset

/-- The diagnostic note the rollover attaches to a synthesized absence. -/
def syntheticAbsentNote : String := "Marked absent - no attendance recorded"

/-- The diagnostic note the rollover attaches when closing a pending record. -/
def autoUnpaidNote : String := "Automatically marked unpaid - no payment status recorded"

/-- The absent payments row the rollover inserts for a child with no record
for the target date (`daily-attendance-reset/index.ts`, second variant,
lines 149-160): absent, `status = "unpaid"`, `amount = 0`,
`debt_amount = 0`, no arrival time, tagged with the synthetic-absence note. -/
def mkAbsentRow (cid target idv : Nat) : PaymentRow :=
  { id := idv, child_id := cid, amount := 0, payment_date := target,
    status := .unpaid, note := some syntheticAbsentNote,
    attendance_status := .absent, arrival_time := none,
    debt_amount := 0, can_undo := true }

/-- The per-child absent decision of the rollover loop body: mark the child
absent exactly when the `maybeSingle` lookup for the target date returns no
row (a lookup error on duplicated rows is logged and the child skipped). -/
def rolloverAbsentDecision (payments : List PaymentRow) (target : Nat)
    (c : ChildRow) : Option Nat :=
  match paymentsFor payments c.id target with
  | [] => some c.id
  | _ => none

/-- The per-child unpaid decision of the rollover loop body: queue a
`(row id, child fee)` update exactly when the child's single record for the
target date is `present` with payment still `pending` (`index.ts` lines
162-168). -/
def rolloverUnpaidDecision (payments : List PaymentRow) (target : Nat)
    (c : ChildRow) : Option (Nat × ℚ) :=
  match paymentsFor payments c.id target with
  | [r] =>
    if r.attendance_status = .present ∧ r.status = .pending then
      some (r.id, c.payment_amount)
    else none
  | _ => none

/-- The ids of the children the rollover loop marks absent. -/
def absentList (children : List ChildRow) (payments : List PaymentRow)
    (target : Nat) : List Nat :=
  children.filterMap (rolloverAbsentDecision payments target)

/-- The update worklist of the rollover loop. -/
def unpaidList (children : List ChildRow) (payments : List PaymentRow)
    (target : Nat) : List (Nat × ℚ) :=
  children.filterMap (rolloverUnpaidDecision payments target)

/-- The batch insert of the absent rows, assigning fresh ids from `n`. -/
def insertAbsent (n target : Nat) : List Nat → List PaymentRow
  | [] => []
  | cid :: rest => mkAbsentRow cid target n :: insertAbsent (n + 1) target rest

/-- The sequential per-row updates of `index.ts` lines 187-200: each
worklist entry sets `status = "unpaid"`, `debt_amount` = the child's fee and
the diagnostic note on every row with the recorded id. -/
def applyUnpaid (ups : List (Nat × ℚ)) (l : List PaymentRow) :
    List PaymentRow :=
  ups.foldl
    (fun acc u =>
      acc.map fun r =>
        if r.id = u.1 then
          { r with status := .unpaid, debt_amount := u.2,
                   note := some autoUnpaidNote }
        else r)
    l

/-- The cumulative effect of the unpaid updates on a single row: the
rowwise reading of `applyUnpaid`, used to reason per record. -/
def applyUnpaidRow (ups : List (Nat × ℚ)) (r : PaymentRow) : PaymentRow :=
  ups.foldl
    (fun r u =>
      if r.id = u.1 then
        { r with status := .unpaid, debt_amount := u.2,
                 note := some autoUnpaidNote }
      else r)
    r

/-- One run of the `daily-attendance-reset` function (second variant, lines
104-222) for the target date: compute both worklists against the current
payments table, insert the absent rows, then apply the unpaid updates. -/
def rollover (s : Store) (target : Nat) : Store :=
  let absents := absentList s.children s.payments target
  let unpaids := unpaidList s.children s.payments target
  { s with
    payments := applyUnpaid unpaids
      (s.payments ++ insertAbsent s.nextId target absents),
    nextId := s.nextId + absents.length }

end Reset

namespace ProfileLedger

/-- Total outstanding debt of a payments list: the sum of `debt_amount`
(`src/unnamed/part_004`, line 120). -/
def totalDebt (l : List PaymentRow) : ℚ :=
  (l.map fun p => p.debt_amount).sum

/-- The records with outstanding debt sorted oldest-date-first
(`part_004` lines 145-147); a stable insertion sort by ascending
`payment_date` models the stable JS `sort` with the date comparator. -/
def debtSorted (l : List PaymentRow) : List PaymentRow :=
  List.insertionSort (fun a b => a.payment_date ≤ b.payment_date)
    (l.filter fun p => decide (0 < p.debt_amount))

/-- The update worklist of the oldest-first settlement loop (`part_004`
lines 149-170): walk the sorted debt records; pay
`min remaining debt_amount` off each, flip `status` to `"paid"` exactly when
the new debt is 0 (otherwise keep the old status), stop when the amount is
exhausted.  Each entry is `(row id, new debt, new status)`. -/
def payOff : ℚ → List PaymentRow → List (Nat × ℚ × PayStatus)
  | _, [] => []
  | remaining, p :: rest =>
    if remaining ≤ 0 then []
    else
      let payAmt := min remaining p.debt_amount
      let newDebt := p.debt_amount - payAmt
      (p.id, newDebt, if newDebt = 0 then .paid else p.status) ::
        payOff (remaining - payAmt) rest

/-- The sequential per-row updates issued by the settlement loop: each
worklist entry sets `debt_amount` and `status` on every row with the
recorded id. -/
def applyPayOff (ups : List (Nat × ℚ × PayStatus)) (l : List PaymentRow) :
    List PaymentRow :=
  ups.foldl
    (fun acc u =>
      acc.map fun r =>
        if r.id = u.1 then { r with debt_amount := u.2.1, status := u.2.2 }
        else r)
    l

/-- The cumulative effect of the settlement updates on a single row: the
rowwise reading of `applyPayOff`, used to reason per record. -/
def payRow (ups : List (Nat × ℚ × PayStatus)) (r : PaymentRow) : PaymentRow :=
  ups.foldl
    (fun r u =>
      if r.id = u.1 then { r with debt_amount := u.2.1, status := u.2.2 }
      else r)
    r

/-- Embedding of `handlePartialPayment` from `src/unnamed/part_004` (lines
122-186): reject a non-positive amount ("Invalid Amount") or an amount
exceeding the total debt ("Amount exceeds remaining debt."), else distribute
the amount over the debt records oldest-date-first. -/
def handlePartialPayment (st : List PaymentRow) (amount : ℚ) :
    Except DcError (List PaymentRow) :=
  if amount ≤ 0 then .error .invalidAmount
  else if totalDebt st < amount then .error .invalidAmount
  else .ok (applyPayOff (payOff amount (debtSorted st)) st)

end ProfileLedger

/-- The error taxonomy of the specification's `undo`. -/
inductive UndoError
  | notFound
  | forbidden
  deriving DecidableEq

/-- Modelled from the spec: `undo(childId, date)` of §4.1 — "permitted only
for the current calendar date (today); deletes the DailyRecord entirely ...
Fails with `NotFound` if no record exists, or `Forbidden` if date ≠ today."
This spec-side definition exists only to exhibit the divergence from the
code's `handleUndo`, which has neither failure path. -/
def undoSpec (s : Store) (childId date today : Nat) : Except UndoError Store :=
  if date ≠ today then .error .forbidden
  else if paymentsFor s.payments childId date = [] then .error .notFound
  else .ok { s with
             payments := s.payments.filter fun r =>
               !(r.child_id == childId && r.payment_date == date),
             daily_records := s.daily_records.filter fun r =>
               !(r.child_id == childId && r.record_date == date) }

namespace AgeUtils

/-- Embedding of `calculateCurrentAge` from `src/lib/age-utils.ts`:
`monthsPassed` stands for `differenceInMonths(now, registeredAt)`, the whole
months elapsed since the age was declared. -/
def calculateCurrentAge (initialValue : Nat) (initialUnit : AgeUnit)
    (monthsPassed : Nat) : AgeData :=
  match initialUnit with
  | .months =>
    let totalMonths := initialValue + monthsPassed
    if totalMonths ≥ 12 then
      let years := totalMonths / 12
      let remainingMonths := totalMonths % 12
      if remainingMonths = 0 then
        { value := years, unit := .years }
      else
        { value := years, unit := .years }
    else
      { value := totalMonths, unit := .months }
  | .years =>
    let yearsToAdd := monthsPassed / 12
    { value := initialValue + yearsToAdd, unit := .years }

end AgeUtils

/-- The empty store: no children, no payments, no tracking rows. -/
def emptyStore : Store :=
  { children := [], payments := [], daily_records := [], nextId := 0 }

/-- Fixture child with both fee columns at 150. -/
def child0 : ChildRow := { id := 0, amount_charged := 150, payment_amount := 150 }

/-- Fixture: an absent, settled row for (child 0, date 5). -/
def rowAbsentSettled : PaymentRow :=
  { id := 0, child_id := 0, amount := 0, payment_date := 5, status := .unpaid,
    note := none, attendance_status := .absent, arrival_time := none,
    debt_amount := 0, can_undo := true }

/-- Fixture: a present, payment-pending row for (child 0, date 5) with the
fee charged. -/
def rowPresentPending : PaymentRow :=
  { id := 0, child_id := 0, amount := 150, payment_date := 5,
    status := .pending, note := none, attendance_status := .present,
    arrival_time := some 9, debt_amount := 150, can_undo := true }

/-- Fixture: a present, payment-pending row whose recorded `amount` is 0
(reachable by marking absent first and re-marking present through the
Children page handler, whose update branch keeps `amount`). -/
def rowPresentPendingZero : PaymentRow :=
  { id := 0, child_id := 0, amount := 0, payment_date := 5,
    status := .pending, note := none, attendance_status := .present,
    arrival_time := some 9, debt_amount := 0, can_undo := true }

/-- Fixture: an unpaid day-1 record carrying 50 of debt. -/
def rowDebtFifty : PaymentRow :=
  { id := 1, child_id := 0, amount := 50, payment_date := 1,
    status := .unpaid, note := none, attendance_status := .present,
    arrival_time := none, debt_amount := 50, can_undo := true }

/-- Fixture: an unpaid day-2 record carrying 30 of debt. -/
def rowDebtThirty : PaymentRow :=
  { id := 2, child_id := 0, amount := 30, payment_date := 2,
    status := .unpaid, note := none, attendance_status := .present,
    arrival_time := none, debt_amount := 30, can_undo := true }

/-- The row the Children page attendance handler inserts when marking a
child absent with no existing record: `status = "pending"`,
`amount = debt_amount = 0`. -/
def markedAbsentRow (nextId c d now : Nat) : PaymentRow :=
  { id := nextId, child_id := c, amount := 0, payment_date := d,
    status := .pending, note := some (noteFor .absent now),
    attendance_status := .absent, arrival_time := none,
    debt_amount := 0, can_undo := true }

/-- Fixture store holding one child and that child's present/pending row. -/
def storeWithPresent : Store :=
  { children := [child0], payments := [rowPresentPending],
    daily_records := [], nextId := 1 }

/-- Fixture store where the recorded `amount` (0) differs from the child's
current fee (150): present/pending record with a stale amount. -/
def storeFeeDrift : Store :=
  { children := [child0], payments := [rowPresentPendingZero],
    daily_records := [], nextId := 1 }

section Helpers

/-- `getD` of a mapped list at an in-range index is the mapped `getD`. -/
theorem getD_map_of_lt {α β : Type} (f : α → β) (l : List α) (i : Nat)
    (h : i < l.length) (dA : α) (dB : β) :
    (l.map f).getD i dB = f (l.getD i dA) := by
  induction l generalizing i with
  | nil => simp at h
  | cons a t ih =>
    cases i with
    | zero => rfl
    | succ n =>
      simp only [List.map_cons, List.getD_cons_succ]
      exact ih n (by simpa using h)

/-- `paymentsFor` distributes over list append. -/
theorem paymentsFor_append (l₁ l₂ : List PaymentRow) (c d : Nat) :
    paymentsFor (l₁ ++ l₂) c d = paymentsFor l₁ c d ++ paymentsFor l₂ c d := by
  simp [paymentsFor, List.filter_append]

/-- `paymentsFor` commutes with a rowwise map that preserves `child_id` and
`payment_date`. -/
theorem paymentsFor_map (f : PaymentRow → PaymentRow)
    (hf : ∀ r, (f r).child_id = r.child_id ∧ (f r).payment_date = r.payment_date)
    (l : List PaymentRow) (c d : Nat) :
    paymentsFor (l.map f) c d = (paymentsFor l c d).map f := by
  unfold paymentsFor
  rw [List.filter_map]
  congr 1
  apply List.filter_congr
  intro a _
  simp [Function.comp, (hf a).1, (hf a).2]

/-- Filtering by `p` after keeping only the rows refuting `p` yields nothing. -/
theorem filter_not_self {α : Type} (p : α → Bool) (l : List α) :
    (l.filter fun a => !(p a)).filter p = [] := by
  induction l with
  | nil => rfl
  | cons a t ih =>
    by_cases h : p a = true
    · rw [List.filter_cons, if_neg (by simp [h])]
      exact ih
    · rw [List.filter_cons, if_pos (by simp [h]), List.filter_cons,
        if_neg (by simp [h])]
      exact ih

end Helpers

/-- Claim C9 counterexample: `calculateCurrentAge` converts a declared age
of 11 months to years after only one elapsed month (11 + 1 = 12 total
months), although 12 months have not elapsed since the declaration — the
conversion is keyed on total age, not on elapsed time. -/
theorem C9_age_conversion_counterexample :
    (AgeUtils.calculateCurrentAge 11 .months 1).unit = AgeUnit.years ∧
      ¬ 12 ≤ 1 := by
  constructor
  · rfl
  · decide

/-- Claim C9 (amended): the recomputed age advances the declared age by the
elapsed whole months; a months-valued age is converted to whole years
(remainder months discarded) exactly when the total declared-plus-elapsed
months reaches 12 — not once 12 months have elapsed since the declaration —
and a years-valued age gains one year per 12 elapsed months. -/
theorem C9_age_recompute_amended : ∀ (v mp : Nat),
    AgeUtils.calculateCurrentAge v .months mp =
      (if 12 ≤ v + mp then { value := (v + mp) / 12, unit := .years }
       else { value := v + mp, unit := .months }) ∧
    AgeUtils.calculateCurrentAge v .years mp =
      { value := v + mp / 12, unit := .years } := by
  intro v mp
  constructor
  · simp only [AgeUtils.calculateCurrentAge, ge_iff_le, ite_self]
  · rfl

/-- Claim C10: when a payments row `r` is the unique row for
(childId, today), the Children page attendance handler touches only that
row's `attendance_status`, `arrival_time` and `note`; every row keeps its
`amount`, `status`, `debt_amount` and identity fields, rows with a different
id are completely unchanged, and no row is inserted. -/
theorem C10_attendance_update_frame
    (st : List PaymentRow) (nextId childId today now : Nat)
    (status : AttInput) (pay : ℚ) (r : PaymentRow)
    (h : paymentsFor st childId today = [r]) :
    (ChildrenPage.handleAttendance st nextId childId today now status pay).2 = nextId ∧
    (ChildrenPage.handleAttendance st nextId childId today now status pay).1.length
        = st.length ∧
    ∀ i, i < st.length →
      (((ChildrenPage.handleAttendance st nextId childId today now status pay).1.getD
          i defaultRow).amount = (st.getD i defaultRow).amount ∧
       ((ChildrenPage.handleAttendance st nextId childId today now status pay).1.getD
          i defaultRow).status = (st.getD i defaultRow).status ∧
       ((ChildrenPage.handleAttendance st nextId childId today now status pay).1.getD
          i defaultRow).debt_amount = (st.getD i defaultRow).debt_amount ∧
       ((ChildrenPage.handleAttendance st nextId childId today now status pay).1.getD
          i defaultRow).id = (st.getD i defaultRow).id ∧
       ((ChildrenPage.handleAttendance st nextId childId today now status pay).1.getD
          i defaultRow).child_id = (st.getD i defaultRow).child_id ∧
       ((ChildrenPage.handleAttendance st nextId childId today now status pay).1.getD
          i defaultRow).payment_date = (st.getD i defaultRow).payment_date ∧
       ((ChildrenPage.handleAttendance st nextId childId today now status pay).1.getD
          i defaultRow).can_undo = (st.getD i defaultRow).can_undo ∧
       ((st.getD i defaultRow).id = r.id →
         ((ChildrenPage.handleAttendance st nextId childId today now status pay).1.getD
            i defaultRow).attendance_status = status.toStatus ∧
         ((ChildrenPage.handleAttendance st nextId childId today now status pay).1.getD
            i defaultRow).arrival_time
            = (if status = .present then some now else none) ∧
         ((ChildrenPage.handleAttendance st nextId childId today now status pay).1.getD
            i defaultRow).note = some (noteFor status now)) ∧
       ((st.getD i defaultRow).id ≠ r.id →
         (ChildrenPage.handleAttendance st nextId childId today now status pay).1.getD
            i defaultRow = st.getD i defaultRow)) := by
  have hsingle : singleData (paymentsFor st childId today) = some r := by
    rw [h]; rfl
  have hmain : ChildrenPage.handleAttendance st nextId childId today now status pay
      = (st.map fun p =>
          if p.id = r.id then
            { p with attendance_status := status.toStatus,
                     arrival_time := if status = .present then some now else none,
                     note := some (noteFor status now) }
          else p, nextId) := by
    simp only [ChildrenPage.handleAttendance, hsingle]
  rw [hmain]
  refine ⟨rfl, List.length_map _ _, ?_⟩
  intro i hi
  rw [getD_map_of_lt _ st i hi defaultRow defaultRow]
  by_cases hid : (st.getD i defaultRow).id = r.id
  · rw [if_pos hid]
    exact ⟨rfl, rfl, rfl, rfl, rfl, rfl, rfl, fun _ => ⟨rfl, rfl, rfl⟩,
      fun hne => absurd hid hne⟩
  · rw [if_neg hid]
    exact ⟨rfl, rfl, rfl, rfl, rfl, rfl, rfl, fun hpos => absurd hpos hid,
      fun _ => rfl⟩

/-- Claim C10 witness: the frame theorem applied to the store holding the
single present/pending fixture row. -/
theorem C10_attendance_update_frame_witness :
    (ChildrenPage.handleAttendance [rowPresentPending] 3 0 5 9 .absent 150).2 = 3 := by
  exact (C10_attendance_update_frame [rowPresentPending] 3 0 5 9 .absent 150
    rowPresentPending (by decide)).1

/-- Claim C1 counterexample: two `markAttendance` calls of the TodaysPayment
page for the same (child, date) insert two payments rows — the payments
store has no composite unique constraint, so more than one DailyRecord for
(c, d) exists afterwards. -/
theorem C1_duplicate_rows_counterexample :
    (paymentsFor
      (TodaysPayment.handleAttendance
        (TodaysPayment.handleAttendance emptyStore child0 5 9 .present)
        child0 5 9 .present).payments 0 5).length = 2 ∧
    ¬ (paymentsFor
      (TodaysPayment.handleAttendance
        (TodaysPayment.handleAttendance emptyStore child0 5 9 .present)
        child0 5 9 .present).payments 0 5).length ≤ 1 := by
  constructor
  · decide
  · decide

/-- Claim C1 (amended): the composite unique constraint on (childId, date)
exists only on the `daily_records` tracking table — its keyed upsert keeps
at most one tracking row per (child, date) — while the `payments` table (the
actual DailyRecord store) has no such constraint: every TodaysPayment-page
`markAttendance` call appends one more payments row for (child, today)
unconditionally, so repeated or concurrent calls produce duplicates. -/
theorem C1_uniqueness_amended :
    (∀ (l : List DailyRecordRow) (row : DailyRecordRow) (c d : Nat),
      countDaily l c d ≤ 1 → countDaily (upsertDaily l row) c d ≤ 1) ∧
    (∀ (s : Store) (child : ChildRow) (today now : Nat) (status : AttInput),
      (paymentsFor (TodaysPayment.handleAttendance s child today now status).payments
          child.id today).length
        = (paymentsFor s.payments child.id today).length + 1) := by
  constructor
  · intro l row c d hle
    unfold upsertDaily countDaily
    by_cases hany : (l.any fun r =>
        r.child_id == row.child_id && r.record_date == row.record_date) = true
    · rw [if_pos hany]
      rw [List.filter_map, List.length_map]
      have hcong : List.filter
          ((fun r => r.child_id == c && r.record_date == d) ∘ fun r =>
            if r.child_id == row.child_id && r.record_date == row.record_date
            then row else r) l
          = List.filter (fun r => r.child_id == c && r.record_date == d) l := by
        apply List.filter_congr
        intro a _
        by_cases hkey : (a.child_id == row.child_id
            && a.record_date == row.record_date) = true
        · obtain ⟨k1, k2⟩ := Bool.and_eq_true _ _ |>.mp hkey
          have e1 : a.child_id = row.child_id := eq_of_beq k1
          have e2 : a.record_date = row.record_date := eq_of_beq k2
          simp only [Function.comp_apply, if_pos hkey]
          rw [← e1, ← e2]
        · simp only [Function.comp_apply, if_neg hkey]
      rw [hcong]
      exact hle
    · rw [if_neg hany]
      rw [List.filter_append, List.length_append]
      by_cases hkey : (row.child_id == c && row.record_date == d) = true
      · obtain ⟨k1, k2⟩ := Bool.and_eq_true _ _ |>.mp hkey
        have e1 : row.child_id = c := eq_of_beq k1
        have e2 : row.record_date = d := eq_of_beq k2
        have hzero : (List.filter
            (fun r => r.child_id == c && r.record_date == d) l).length = 0 := by
          rw [List.length_eq_zero, List.filter_eq_nil_iff]
          intro a ha hmem
          obtain ⟨m1, m2⟩ := Bool.and_eq_true _ _ |>.mp hmem
          have f1 : a.child_id = c := eq_of_beq m1
          have f2 : a.record_date = d := eq_of_beq m2
          apply hany
          rw [List.any_eq_true]
          refine ⟨a, ha, ?_⟩
          rw [Bool.and_eq_true]
          constructor
          · exact beq_iff_eq.mpr (by rw [f1, e1])
          · exact beq_iff_eq.mpr (by rw [f2, e2])
        rw [hzero]
        simp [hkey]
      · rw [Bool.not_eq_true] at hkey
        simp [List.filter_singleton, hkey]
        exact hle
  · intro s child today now status
    show (paymentsFor (s.payments ++ _) child.id today).length = _
    rw [paymentsFor_append, List.length_append]
    congr 1
    unfold paymentsFor
    rw [List.filter_singleton]
    simp

/-- Claim C1 witness: the upsert preservation applied to the empty tracking
table. -/
theorem C1_uniqueness_amended_witness :
    countDaily (upsertDaily []
      { child_id := 0, record_date := 0,
        attendance_marked := true, payment_marked := false }) 0 0 ≤ 1 := by
  exact C1_uniqueness_amended.1 []
    { child_id := 0, record_date := 0,
      attendance_marked := true, payment_marked := false } 0 0 (by decide)

/-- Claim C8 counterexample: on a store with no record for (child 0, day 5),
the spec's `undo` demands a `NotFound` failure, but the code's `handleUndo`
— which takes no date argument at all — succeeds and leaves the store
unchanged. -/
theorem C8_undo_counterexample :
    undoSpec emptyStore 0 5 5 = .error .notFound ∧
    TodaysPayment.handleUndo emptyStore 0 5 = emptyStore := by
  constructor
  · rfl
  · rfl

/-- Claim C8 (amended): `handleUndo` always targets the current date (it
takes no date argument, so a non-today undo cannot be issued and no
`Forbidden` path exists) and succeeds even when no record exists (no
`NotFound` path): it deletes every payments row and tracking row for
(child, today), leaves all other rows in place, and afterwards
`markAttendance` succeeds again — the profile page's guarded handler no
longer rejects. -/
theorem C8_undo_amended (s : Store) (c today : Nat) :
    paymentsFor (TodaysPayment.handleUndo s c today).payments c today = [] ∧
    (∀ r ∈ (TodaysPayment.handleUndo s c today).payments, r ∈ s.payments) ∧
    (∀ r ∈ s.payments, ¬(r.child_id = c ∧ r.payment_date = today) →
      r ∈ (TodaysPayment.handleUndo s c today).payments) ∧
    (∀ dr ∈ (TodaysPayment.handleUndo s c today).daily_records,
      dr ∈ s.daily_records) ∧
    (∀ dr ∈ s.daily_records, ¬(dr.child_id = c ∧ dr.record_date = today) →
      dr ∈ (TodaysPayment.handleUndo s c today).daily_records) ∧
    (∀ (child : ChildRow) (now : Nat) (status : AttInput), child.id = c →
      ∃ s₂, ProfilePage.handleQuickAttendance (TodaysPayment.handleUndo s c today)
              child today now status = .ok s₂) := by
  have hclear : paymentsFor (TodaysPayment.handleUndo s c today).payments c today
      = [] := by
    show paymentsFor (s.payments.filter _) c today = []
    exact filter_not_self (fun r => r.child_id == c && r.payment_date == today)
      s.payments
  refine ⟨hclear, ?_, ?_, ?_, ?_, ?_⟩
  · intro r hr
    exact List.mem_of_mem_filter hr
  · intro r hr hne
    apply List.mem_filter.mpr
    refine ⟨hr, ?_⟩
    rw [Bool.not_eq_true']
    rw [Bool.and_eq_false_iff]
    by_cases h1 : r.child_id = c
    · right
      rw [beq_eq_false_iff_ne]
      intro h2
      exact hne ⟨h1, h2⟩
    · left
      rw [beq_eq_false_iff_ne]
      exact h1
  · intro dr hdr
    exact List.mem_of_mem_filter hdr
  · intro dr hdr hne
    apply List.mem_filter.mpr
    refine ⟨hdr, ?_⟩
    rw [Bool.not_eq_true']
    rw [Bool.and_eq_false_iff]
    by_cases h1 : dr.child_id = c
    · right
      rw [beq_eq_false_iff_ne]
      intro h2
      exact hne ⟨h1, h2⟩
    · left
      rw [beq_eq_false_iff_ne]
      exact h1
  · intro child now status heq
    have h0 : paymentsFor (TodaysPayment.handleUndo s c today).payments
        child.id today = [] := by rw [heq]; exact hclear
    simp only [ProfilePage.handleQuickAttendance, h0, singleData]
    exact ⟨_, rfl⟩

/-- Claim C8 witness: after undoing today's record, the profile page's
attendance handler accepts a fresh marking for the fixture store. -/
theorem C8_undo_amended_witness :
    ∃ s₂, ProfilePage.handleQuickAttendance
      (TodaysPayment.handleUndo storeWithPresent 0 5) child0 5 9 .present
        = .ok s₂ := by
  exact (C8_undo_amended storeWithPresent 0 5).2.2.2.2.2 child0 9 .present rfl

/-- Claim C5 counterexample: a record for (child 0, day 5) exists with
`attendance_status = absent` and `status = unpaid` (≠ pending), yet
`markPayment` does not fail with `PreconditionFailed` — it succeeds and
rewrites the record, raising its debt. -/
theorem C5_markPayment_counterexample :
    ChildrenPage.handlePayment [rowAbsentSettled] 0 5 .unpaid 150
        = .ok [{ rowAbsentSettled with status := .unpaid, debt_amount := 150 }] ∧
    rowAbsentSettled.attendance_status ≠ .present ∧
    ({ rowAbsentSettled with status := .unpaid, debt_amount := 150 }
        : PaymentRow).debt_amount ≠ rowAbsentSettled.debt_amount := by
  refine ⟨rfl, by decide, by decide⟩

/-- Claim C5 (amended): the payment handlers check only record existence.
`markPayment` fails with `PreconditionFailed` — leaving everything unchanged
— exactly when the lookup for (c, d) does not return a single row (so in
particular always before `markAttendance`); when a unique record exists the
call succeeds regardless of its attendance or previous payment status,
setting `status` and `debt_amount` (0 when paid, the passed amount when
unpaid).  The TodaysPayment variant behaves the same way. -/
theorem C5_markPayment_amended :
    (∀ (st : List PaymentRow) (c d : Nat) (q : PayInput) (amt : ℚ),
      paymentsFor st c d = [] →
        ChildrenPage.handlePayment st c d q amt = .error .preconditionFailed) ∧
    (∀ (st : List PaymentRow) (c d : Nat) (q : PayInput) (amt : ℚ),
      singleData (paymentsFor st c d) = none →
        ChildrenPage.handlePayment st c d q amt = .error .preconditionFailed) ∧
    (∀ (st : List PaymentRow) (c d : Nat) (q : PayInput) (amt : ℚ)
        (r : PaymentRow), paymentsFor st c d = [r] →
      ∃ st', ChildrenPage.handlePayment st c d q amt = .ok st' ∧
        st'.length = st.length ∧
        (∀ i, i < st.length → (st.getD i defaultRow).id ≠ r.id →
          st'.getD i defaultRow = st.getD i defaultRow) ∧
        (∀ i, i < st.length → (st.getD i defaultRow).id = r.id →
          (st'.getD i defaultRow).status = q.toStatus ∧
          (st'.getD i defaultRow).debt_amount = (if q = .paid then 0 else amt) ∧
          (st'.getD i defaultRow).attendance_status
            = (st.getD i defaultRow).attendance_status ∧
          (st'.getD i defaultRow).amount = (st.getD i defaultRow).amount)) ∧
    (∀ (s : Store) (child : ChildRow) (today : Nat) (q : PayInput),
      paymentsFor s.payments child.id today = [] →
        TodaysPayment.handlePayment s child today q = .error .preconditionFailed) ∧
    (∀ (s : Store) (child : ChildRow) (today : Nat) (q : PayInput)
        (r : PaymentRow), paymentsFor s.payments child.id today = [r] →
      ∃ s₂, TodaysPayment.handlePayment s child today q = .ok s₂) := by
  refine ⟨?_, ?_, ?_, ?_, ?_⟩
  · intro st c d q amt h
    simp only [ChildrenPage.handlePayment, h, singleData]
  · intro st c d q amt h
    simp only [ChildrenPage.handlePayment, h]
  · intro st c d q amt r h
    have hsingle : singleData (paymentsFor st c d) = some r := by
      rw [h]; rfl
    refine ⟨st.map fun p =>
      if p.id = r.id then
        { p with status := q.toStatus,
                 debt_amount := if q = .paid then 0 else amt }
      else p, ?_, List.length_map _ _, ?_, ?_⟩
    · simp only [ChildrenPage.handlePayment, hsingle]
    · intro i hi hne
      rw [getD_map_of_lt _ st i hi defaultRow defaultRow, if_neg hne]
    · intro i hi hpos
      rw [getD_map_of_lt _ st i hi defaultRow defaultRow, if_pos hpos]
      exact ⟨rfl, rfl, rfl, rfl⟩
  · intro s child today q h
    simp only [TodaysPayment.handlePayment, h]
  · intro s child today q r h
    simp only [TodaysPayment.handlePayment, h]
    exact ⟨_, rfl⟩

/-- Claim C5 witness: with a single absent, non-pending record present, the
handler does not reject. -/
theorem C5_markPayment_amended_witness :
    ChildrenPage.handlePayment [rowAbsentSettled] 0 5 .paid 150
      ≠ .error .preconditionFailed := by
  obtain ⟨st', h1, -, -, -⟩ := C5_markPayment_amended.2.2.1 [rowAbsentSettled]
    0 5 .paid 150 rowAbsentSettled (by decide)
  rw [h1]
  intro hcontra
  cases hcontra

/-- Claim C6 counterexample: marking child 0 absent on day 5 creates a
record with `amount = 0`, `debt_amount = 0` but `status = pending` (not a
terminal payment state), and a subsequent `markPayment(unpaid)` does not
fail — it succeeds and sets the absent record's debt to 150. -/
theorem C6_absence_debt_counterexample :
    (ChildrenPage.handleAttendance ([] : List PaymentRow) 0 0 5 9 .absent 150).1
        = [markedAbsentRow 0 0 5 9] ∧
    (markedAbsentRow 0 0 5 9).status = .pending ∧
    ChildrenPage.handlePayment [markedAbsentRow 0 0 5 9] 0 5 .unpaid 150
        = .ok [{ markedAbsentRow 0 0 5 9 with
                 status := .unpaid, debt_amount := 150 }] ∧
    ({ markedAbsentRow 0 0 5 9 with
       status := .unpaid, debt_amount := 150 } : PaymentRow).debt_amount ≠ 0 := by
  refine ⟨?_, rfl, rfl, by decide⟩
  show [] ++ [_] = _
  rw [List.nil_append]
  simp [markedAbsentRow, AttInput.toStatus]

/-- Claim C6 (amended): immediately after `markAttendance(c, d, absent)` the
new record has `amountDue = 0` and `debtRemaining = 0`, but its payment
status is `pending`, not terminal, and subsequent `markPayment` calls do not
fail: `paid` leaves the debt at 0 while `unpaid` raises it to the passed
amount, so `debtRemaining` need not stay 0. -/
theorem C6_absent_then_payment_amended
    (st : List PaymentRow) (nextId c d now : Nat) (pay amt : ℚ)
    (h : paymentsFor st c d = []) :
    (ChildrenPage.handleAttendance st nextId c d now .absent pay).1
        = st ++ [markedAbsentRow nextId c d now] ∧
    (markedAbsentRow nextId c d now).amount = 0 ∧
    (markedAbsentRow nextId c d now).debt_amount = 0 ∧
    (markedAbsentRow nextId c d now).attendance_status = .absent ∧
    (markedAbsentRow nextId c d now).status = .pending ∧
    paymentsFor (st ++ [markedAbsentRow nextId c d now]) c d
        = [markedAbsentRow nextId c d now] ∧
    (∀ q : PayInput, ∃ st₂,
      ChildrenPage.handlePayment (st ++ [markedAbsentRow nextId c d now])
          c d q amt = .ok st₂ ∧
      paymentsFor st₂ c d
        = [{ markedAbsentRow nextId c d now with
             status := q.toStatus,
             debt_amount := if q = .paid then 0 else amt }]) := by
  have hnone : singleData (paymentsFor st c d) = none := by
    rw [h]; rfl
  have hlook : paymentsFor (st ++ [markedAbsentRow nextId c d now]) c d
      = [markedAbsentRow nextId c d now] := by
    rw [paymentsFor_append, h, List.nil_append]
    unfold paymentsFor
    rw [List.filter_singleton]
    simp [markedAbsentRow]
  refine ⟨?_, rfl, rfl, rfl, rfl, hlook, ?_⟩
  · simp only [ChildrenPage.handleAttendance, hnone]
    simp [markedAbsentRow, AttInput.toStatus]
  · intro q
    have hsingle : singleData
        (paymentsFor (st ++ [markedAbsentRow nextId c d now]) c d)
        = some (markedAbsentRow nextId c d now) := by
      rw [hlook]; rfl
    refine ⟨(st ++ [markedAbsentRow nextId c d now]).map fun p =>
      if p.id = (markedAbsentRow nextId c d now).id then
        { p with status := q.toStatus,
                 debt_amount := if q = .paid then 0 else amt }
      else p, ?_, ?_⟩
    · simp only [ChildrenPage.handlePayment, hsingle]
    · rw [paymentsFor_map _ (fun r => by
        by_cases hid : r.id = (markedAbsentRow nextId c d now).id
        · rw [if_pos hid]; exact ⟨rfl, rfl⟩
        · rw [if_neg hid]; exact ⟨rfl, rfl⟩), hlook]
      rw [List.map_singleton]
      rw [if_pos rfl]

/-- Claim C6 witness: the amended theorem applied to the empty store. -/
theorem C6_absent_then_payment_amended_witness :
    (ChildrenPage.handleAttendance ([] : List PaymentRow) 0 0 5 9 .absent 150).1
      = [] ++ [markedAbsentRow 0 0 5 9] := by
  exact (C6_absent_then_payment_amended [] 0 0 5 9 150 150 (by decide)).1

/-- Claim C7 counterexample: with attendance already marked present for
(child 0, day 5), re-marking through the Children page handler does not fail
with `InvalidTransition` — it overwrites the row's attendance to absent. -/
theorem C7_remark_counterexample :
    (ChildrenPage.handleAttendance [rowPresentPending] 1 0 5 10 .absent 150).1
        = [{ rowPresentPending with
             attendance_status := .absent, arrival_time := none,
             note := some (noteFor .absent 10) }] ∧
    ({ rowPresentPending with
       attendance_status := .absent, arrival_time := none,
       note := some (noteFor .absent 10) } : PaymentRow).attendance_status
        ≠ rowPresentPending.attendance_status := by
  refine ⟨rfl, by decide⟩

/-- Claim C7 (amended): once a record exists for (c, today), the profile
page's quick handler rejects any re-marking ("Already recorded"), changing
nothing; the Children page handler never fails — it overwrites the existing
row's attendance in place. -/
theorem C7_remark_attendance_amended :
    (∀ (s : Store) (child : ChildRow) (today now : Nat) (status : AttInput)
        (r : PaymentRow),
      paymentsFor s.payments child.id today = [r] →
        ProfilePage.handleQuickAttendance s child today now status
          = .error .alreadyRecorded) ∧
    (∀ (st : List PaymentRow) (nextId c d now : Nat) (status : AttInput)
        (pay : ℚ) (r : PaymentRow),
      paymentsFor st c d = [r] →
        (ChildrenPage.handleAttendance st nextId c d now status pay).1.length
            = st.length ∧
        ∀ i, i < st.length → (st.getD i defaultRow).id = r.id →
          ((ChildrenPage.handleAttendance st nextId c d now status pay).1.getD
              i defaultRow).attendance_status = status.toStatus) := by
  constructor
  · intro s child today now status r h
    have hsingle : singleData (paymentsFor s.payments child.id today)
        = some r := by rw [h]; rfl
    simp only [ProfilePage.handleQuickAttendance, hsingle]
  · intro st nextId c d now status pay r h
    have hsingle : singleData (paymentsFor st c d) = some r := by
      rw [h]; rfl
    have hmain : (ChildrenPage.handleAttendance st nextId c d now status pay).1
        = st.map fun p =>
            if p.id = r.id then
              { p with attendance_status := status.toStatus,
                       arrival_time := if status = .present then some now else none,
                       note := some (noteFor status now) }
            else p := by
      simp only [ChildrenPage.handleAttendance, hsingle]
    rw [hmain]
    refine ⟨List.length_map _ _, ?_⟩
    intro i hi hid
    rw [getD_map_of_lt _ st i hi defaultRow defaultRow, if_pos hid]

/-- Claim C7 witness: the profile page handler rejects a re-marking on the
fixture store whose child already has a present/pending row. -/
theorem C7_remark_attendance_amended_witness :
    ProfilePage.handleQuickAttendance storeWithPresent child0 5 10 .absent
      = .error .alreadyRecorded := by
  exact C7_remark_attendance_amended.1 storeWithPresent child0 5 10 .absent
    rowPresentPending (by decide)

section LedgerLemmas

/-- A fold of rowwise maps is the map of the rowwise fold. -/
theorem foldl_map_comm {β : Type} (g : β → PaymentRow → PaymentRow)
    (ups : List β) (l : List PaymentRow) :
    ups.foldl (fun acc u => acc.map (g u)) l
      = l.map fun r => ups.foldl (fun r u => g u r) r := by
  induction ups generalizing l with
  | nil => simp
  | cons u rest ih =>
    rw [List.foldl_cons, ih, List.map_map]
    rfl

/-- The sequential settlement updates act rowwise. -/
theorem applyPayOff_eq_map (ups : List (Nat × ℚ × PayStatus))
    (l : List PaymentRow) :
    ProfileLedger.applyPayOff ups l = l.map (ProfileLedger.payRow ups) := by
  unfold ProfileLedger.applyPayOff ProfileLedger.payRow
  exact foldl_map_comm _ ups l

/-- Unfolding `payRow` one update at a time. -/
theorem payRow_cons (u : Nat × ℚ × PayStatus) (rest : List (Nat × ℚ × PayStatus))
    (r : PaymentRow) :
    ProfileLedger.payRow (u :: rest) r
      = ProfileLedger.payRow rest
          (if r.id = u.1 then { r with debt_amount := u.2.1, status := u.2.2 }
           else r) := rfl

/-- `payRow` over an appended update list. -/
theorem payRow_append (l₁ l₂ : List (Nat × ℚ × PayStatus)) (r : PaymentRow) :
    ProfileLedger.payRow (l₁ ++ l₂) r
      = ProfileLedger.payRow l₂ (ProfileLedger.payRow l₁ r) := by
  unfold ProfileLedger.payRow
  rw [List.foldl_append]

/-- The settlement updates never change a row's identity fields, amount or
attendance data. -/
theorem payRow_fields (ups : List (Nat × ℚ × PayStatus)) (r : PaymentRow) :
    (ProfileLedger.payRow ups r).id = r.id ∧
    (ProfileLedger.payRow ups r).child_id = r.child_id ∧
    (ProfileLedger.payRow ups r).payment_date = r.payment_date ∧
    (ProfileLedger.payRow ups r).amount = r.amount ∧
    (ProfileLedger.payRow ups r).attendance_status = r.attendance_status := by
  induction ups generalizing r with
  | nil => exact ⟨rfl, rfl, rfl, rfl, rfl⟩
  | cons u rest ih =>
    rw [payRow_cons]
    by_cases h : r.id = u.1
    · rw [if_pos h]
      exact ih _
    · rw [if_neg h]
      exact ih r

/-- A row whose id never occurs in the update list is unchanged. -/
theorem payRow_not_mem (ups : List (Nat × ℚ × PayStatus)) (r : PaymentRow)
    (h : r.id ∉ ups.map fun u => u.1) : ProfileLedger.payRow ups r = r := by
  induction ups with
  | nil => rfl
  | cons u rest ih =>
    simp only [List.map_cons, List.mem_cons, not_or] at h
    rw [payRow_cons, if_neg h.1]
    exact ih h.2

/-- A row hit by exactly one update takes exactly that update. -/
theorem payRow_single (pre post : List (Nat × ℚ × PayStatus))
    (u : Nat × ℚ × PayStatus) (r : PaymentRow)
    (hpre : r.id ∉ pre.map fun v => v.1)
    (hpost : r.id ∉ post.map fun v => v.1)
    (hu : r.id = u.1) :
    ProfileLedger.payRow (pre ++ u :: post) r
      = { r with debt_amount := u.2.1, status := u.2.2 } := by
  rw [payRow_append, payRow_not_mem pre r hpre, payRow_cons, if_pos hu]
  exact payRow_not_mem post _ hpost

/-- Unfolding `payOff` on a non-empty debt list. -/
theorem payOff_cons (amt : ℚ) (p : PaymentRow) (rest : List PaymentRow) :
    ProfileLedger.payOff amt (p :: rest)
      = if amt ≤ 0 then []
        else
          (p.id, p.debt_amount - min amt p.debt_amount,
            if p.debt_amount - min amt p.debt_amount = 0 then .paid
            else p.status) ::
            ProfileLedger.payOff (amt - min amt p.debt_amount) rest := rfl

/-- The ids the settlement loop touches form a prefix of the date-sorted
debt list: the walk is oldest-first and stops when the amount runs out. -/
theorem payOff_walks_oldest_first (amt : ℚ) (S : List PaymentRow) :
    ((ProfileLedger.payOff amt S).map fun u => u.1)
      <+: (S.map fun p => p.id) := by
  induction S generalizing amt with
  | nil => exact List.nil_prefix
  | cons p rest ih =>
    rw [payOff_cons]
    by_cases h : amt ≤ 0
    · rw [if_pos h]
      exact List.nil_prefix
    · rw [if_neg h]
      rw [List.map_cons, List.map_cons]
      exact List.cons_prefix_cons.mpr ⟨rfl, ih _⟩

/-- Every settlement update stems from a debt record with the same id, never
drives the debt negative or above the record's debt, and flips the status to
paid exactly when the new debt is 0. -/
theorem payOff_entry_char (amt : ℚ) (S : List PaymentRow)
    (hpos : ∀ p ∈ S, 0 < p.debt_amount) :
    ∀ u ∈ ProfileLedger.payOff amt S, ∃ p, p ∈ S ∧ u.1 = p.id ∧
      0 ≤ u.2.1 ∧ u.2.1 ≤ p.debt_amount ∧
      u.2.2 = (if u.2.1 = 0 then PayStatus.paid else p.status) := by
  induction S generalizing amt with
  | nil =>
    intro u hu
    exact absurd hu (List.not_mem_nil u)
  | cons p rest ih =>
    intro u hu
    rw [payOff_cons] at hu
    by_cases h : amt ≤ 0
    · rw [if_pos h] at hu
      exact absurd hu (List.not_mem_nil u)
    · rw [if_neg h] at hu
      rcases List.mem_cons.mp hu with he | ht
      · subst he
        refine ⟨p, List.mem_cons_self p rest, rfl, ?_, ?_, rfl⟩
        · exact sub_nonneg.mpr (min_le_right amt p.debt_amount)
        · have hposp := hpos p (List.mem_cons_self p rest)
          have h0min : 0 ≤ min amt p.debt_amount :=
            le_min (le_of_lt (not_le.mp h)) (le_of_lt hposp)
          exact sub_le_self _ h0min
      · obtain ⟨q, hq, hrest⟩ := ih _
          (fun x hx => hpos x (List.mem_cons_of_mem p hx)) u ht
        exact ⟨q, List.mem_cons_of_mem p hq, hrest⟩

/-- `totalDebt` of a cons. -/
theorem totalDebt_cons (p : PaymentRow) (l : List PaymentRow) :
    ProfileLedger.totalDebt (p :: l)
      = p.debt_amount + ProfileLedger.totalDebt l := by
  simp [ProfileLedger.totalDebt]

/-- Updating the debt of the unique row with id `p.id` shifts the total by
the difference. -/
theorem totalDebt_update (st : List PaymentRow) (p : PaymentRow) (nd : ℚ)
    (ns : PayStatus) (hp : p ∈ st) (hnd : (st.map fun r => r.id).Nodup) :
    ProfileLedger.totalDebt (st.map fun r =>
        if r.id = p.id then { r with debt_amount := nd, status := ns } else r)
      = ProfileLedger.totalDebt st - p.debt_amount + nd := by
  induction st with
  | nil => exact absurd hp (List.not_mem_nil p)
  | cons a t ih =>
    rw [List.map_cons] at hnd
    have hnd' := List.nodup_cons.mp hnd
    rcases List.mem_cons.mp hp with he | ht
    · subst he
      rw [List.map_cons, if_pos rfl, totalDebt_cons, totalDebt_cons]
      have hmapid : (t.map fun r =>
          if r.id = p.id then { r with debt_amount := nd, status := ns }
          else r) = t := by
        have hok : ∀ r ∈ t, (if r.id = p.id
            then { r with debt_amount := nd, status := ns } else r) = r := by
          intro r hr
          rw [if_neg]
          intro hcontra
          exact hnd'.1 (hcontra ▸ List.mem_map_of_mem (fun q => q.id) hr)
        calc (t.map _) = t.map id := List.map_congr_left hok
        _ = t := List.map_id t
      rw [hmapid]
      ring
    · have hne : a.id ≠ p.id := by
        intro he2
        exact hnd'.1 (he2 ▸ List.mem_map_of_mem (fun q => q.id) ht)
      rw [List.map_cons, if_neg hne, totalDebt_cons, totalDebt_cons]
      rw [ih ht hnd'.2]
      ring

/-- A debt/status update keeps every row's id. -/
theorem updateRow_id (pid : Nat) (nd : ℚ) (ns : PayStatus) (r : PaymentRow) :
    (if r.id = pid then { r with debt_amount := nd, status := ns }
     else r).id = r.id := by
  by_cases h : r.id = pid
  · rw [if_pos h]
  · rw [if_neg h]

/-- Applying the settlement worklist reduces the total debt by exactly
`min remaining (total debt of the walked records)`. -/
theorem applyPayOff_totalDebt :
    ∀ (S st : List PaymentRow) (remaining : ℚ),
      0 ≤ remaining →
      (∀ p ∈ S, p ∈ st) →
      (∀ p ∈ S, 0 < p.debt_amount) →
      ((S.map fun p => p.id).Nodup) →
      ((st.map fun p => p.id).Nodup) →
      ProfileLedger.totalDebt
          (ProfileLedger.applyPayOff (ProfileLedger.payOff remaining S) st)
        = ProfileLedger.totalDebt st
            - min remaining ((S.map fun p => p.debt_amount).sum) := by
  intro S
  induction S with
  | nil =>
    intro st remaining h0 _ _ _ _
    show ProfileLedger.totalDebt st = _
    rw [List.map_nil, List.sum_nil, min_eq_right h0, sub_zero]
  | cons p rest ih =>
    intro st remaining h0 hsub hpos hndS hndst
    rw [payOff_cons]
    by_cases hr : remaining ≤ 0
    · rw [if_pos hr]
      show ProfileLedger.totalDebt st = _
      have hrem0 : remaining = 0 := le_antisymm hr h0
      subst hrem0
      have hsum : 0 ≤ (((p :: rest).map fun q => q.debt_amount).sum) := by
        apply List.sum_nonneg
        intro x hx
        obtain ⟨q, hq, rfl⟩ := List.mem_map.mp hx
        exact le_of_lt (hpos q hq)
      rw [min_eq_left hsum, sub_zero]
    · rw [if_neg hr]
      have happ : ProfileLedger.applyPayOff
          ((p.id, p.debt_amount - min remaining p.debt_amount,
            if p.debt_amount - min remaining p.debt_amount = 0 then PayStatus.paid
            else p.status) ::
            ProfileLedger.payOff (remaining - min remaining p.debt_amount) rest) st
          = ProfileLedger.applyPayOff
              (ProfileLedger.payOff (remaining - min remaining p.debt_amount) rest)
              (st.map fun r =>
                if r.id = p.id then
                  { r with
                    debt_amount := p.debt_amount - min remaining p.debt_amount,
                    status := if p.debt_amount - min remaining p.debt_amount = 0
                              then PayStatus.paid else p.status }
                else r) := rfl
      rw [happ]
      have hndS' := List.nodup_cons.mp (by rw [List.map_cons] at hndS; exact hndS)
      have hmem : p ∈ st := hsub p (List.mem_cons_self p rest)
      have hids : ((st.map fun r =>
          if r.id = p.id then
            { r with
              debt_amount := p.debt_amount - min remaining p.debt_amount,
              status := if p.debt_amount - min remaining p.debt_amount = 0
                        then PayStatus.paid else p.status }
          else r).map fun q => q.id) = st.map fun q => q.id := by
        rw [List.map_map]
        apply List.map_congr_left
        intro a _
        exact updateRow_id p.id _ _ a
      have hrec := ih (st.map fun r =>
          if r.id = p.id then
            { r with
              debt_amount := p.debt_amount - min remaining p.debt_amount,
              status := if p.debt_amount - min remaining p.debt_amount = 0
                        then PayStatus.paid else p.status }
          else r) (remaining - min remaining p.debt_amount)
        (by have := min_le_left remaining p.debt_amount; linarith)
        (by
          intro q hq
          have hq' : q ∈ st := hsub q (List.mem_cons_of_mem p hq)
          have hqid : q.id ≠ p.id := by
            intro he
            exact hndS'.1 (he ▸ List.mem_map_of_mem (fun x => x.id) hq)
          refine List.mem_map.mpr ⟨q, hq', ?_⟩
          rw [if_neg hqid])
        (fun q hq => hpos q (List.mem_cons_of_mem p hq))
        hndS'.2
        (by rw [hids]; exact hndst)
      rw [hrec]
      have hupd := totalDebt_update st p
        (p.debt_amount - min remaining p.debt_amount)
        (if p.debt_amount - min remaining p.debt_amount = 0 then PayStatus.paid
         else p.status) hmem hndst
      rw [hupd]
      rw [List.map_cons, List.sum_cons]
      have hrestsum : 0 ≤ ((rest.map fun q => q.debt_amount).sum) := by
        apply List.sum_nonneg
        intro x hx
        obtain ⟨q, hq, rfl⟩ := List.mem_map.mp hx
        exact le_of_lt (hpos q (List.mem_cons_of_mem p hq))
      rcases le_total remaining p.debt_amount with hc | hc
      · have h1 : min remaining p.debt_amount = remaining := min_eq_left hc
        have h2 : min (remaining - remaining)
            ((rest.map fun q => q.debt_amount).sum) = 0 := by
          rw [sub_self]
          exact min_eq_left hrestsum
        have h3 : min remaining
            (p.debt_amount + (rest.map fun q => q.debt_amount).sum)
            = remaining := min_eq_left (by linarith)
        rw [h1, h2, h3]
        ring
      · have h1 : min remaining p.debt_amount = p.debt_amount := min_eq_right hc
        have hminsplit : min remaining
            (p.debt_amount + (rest.map fun q => q.debt_amount).sum)
            = p.debt_amount + min (remaining - p.debt_amount)
                ((rest.map fun q => q.debt_amount).sum) := by
          rcases le_total (remaining - p.debt_amount)
              ((rest.map fun q => q.debt_amount).sum) with hd | hd
          · rw [min_eq_left hd, min_eq_left (by linarith : remaining ≤
              p.debt_amount + (rest.map fun q => q.debt_amount).sum)]
            ring
          · rw [min_eq_right hd, min_eq_right (by linarith :
              p.debt_amount + (rest.map fun q => q.debt_amount).sum ≤ remaining)]
        rw [h1, hminsplit]
        ring

/-- The total debt is at most the summed debt of the positive-debt records. -/
theorem totalDebt_le_posSum (l : List PaymentRow) :
    ProfileLedger.totalDebt l
      ≤ ((l.filter fun p => decide (0 < p.debt_amount)).map
          fun p => p.debt_amount).sum := by
  induction l with
  | nil => simp [ProfileLedger.totalDebt]
  | cons a t ih =>
    rw [totalDebt_cons, List.filter_cons]
    by_cases h : 0 < a.debt_amount
    · rw [if_pos (by simpa using h)]
      rw [List.map_cons, List.sum_cons]
      linarith
    · rw [if_neg (by simpa using h)]
      have : a.debt_amount ≤ 0 := le_of_not_lt h
      linarith

/-- A `getD` at an in-range index is a member. -/
theorem getD_mem_of_lt {α : Type} (l : List α) (i : Nat) (h : i < l.length)
    (d : α) : l.getD i d ∈ l := by
  rw [List.getD_eq_getElem?_getD, List.getElem?_eq_getElem h]
  exact List.getElem_mem h

end LedgerLemmas

/-- Claim C2: `settlePartial` (the profile page's `handlePartialPayment`)
fails with `InvalidAmount` when the amount is non-positive or exceeds the
total debt; otherwise it succeeds and walks the positive-debt records
oldest-date-first (the touched ids are a prefix of the date-sorted debt
list), the total debt drops by exactly the amount, no touched record's debt
goes negative or grows, a touched record's status flips to paid exactly when
its debt reaches 0 (otherwise keeping its old status), untouched records are
unchanged, and identity fields are preserved; debts of 50 (day 1) and 30
(day 2) settled with 60 leave day 1 at 0 (paid) and day 2 at 20. -/
theorem C2_settle_partial_spec :
    (∀ (st : List PaymentRow) (amount : ℚ), amount ≤ 0 →
      ProfileLedger.handlePartialPayment st amount = .error .invalidAmount) ∧
    (∀ (st : List PaymentRow) (amount : ℚ),
      ProfileLedger.totalDebt st < amount →
      ProfileLedger.handlePartialPayment st amount = .error .invalidAmount) ∧
    (∀ (st : List PaymentRow) (amount : ℚ),
      ((st.map fun p => p.id).Nodup) → 0 < amount →
      amount ≤ ProfileLedger.totalDebt st →
      ∃ st', ProfileLedger.handlePartialPayment st amount = .ok st' ∧
        ProfileLedger.totalDebt st'
          = ProfileLedger.totalDebt st - amount ∧
        st'.length = st.length ∧
        (((ProfileLedger.payOff amount (ProfileLedger.debtSorted st)).map
            fun u => u.1)
          <+: ((ProfileLedger.debtSorted st).map fun p => p.id)) ∧
        (∀ i, i < st.length →
          (st.getD i defaultRow).id ∉
            ((ProfileLedger.payOff amount (ProfileLedger.debtSorted st)).map
              fun u => u.1) →
          st'.getD i defaultRow = st.getD i defaultRow) ∧
        (∀ i, i < st.length →
          (st.getD i defaultRow).id ∈
            ((ProfileLedger.payOff amount (ProfileLedger.debtSorted st)).map
              fun u => u.1) →
          0 ≤ (st'.getD i defaultRow).debt_amount ∧
          (st'.getD i defaultRow).debt_amount
            ≤ (st.getD i defaultRow).debt_amount ∧
          (st'.getD i defaultRow).status
            = (if (st'.getD i defaultRow).debt_amount = 0 then PayStatus.paid
               else (st.getD i defaultRow).status) ∧
          (st'.getD i defaultRow).id = (st.getD i defaultRow).id ∧
          (st'.getD i defaultRow).amount = (st.getD i defaultRow).amount ∧
          (st'.getD i defaultRow).payment_date
            = (st.getD i defaultRow).payment_date)) ∧
    (ProfileLedger.handlePartialPayment [rowDebtFifty, rowDebtThirty] 60
      = .ok [{ rowDebtFifty with debt_amount := 0, status := .paid },
             { rowDebtThirty with debt_amount := 20 }]) := by
  refine ⟨?_, ?_, ?_, ?_⟩
  · intro st amount h
    unfold ProfileLedger.handlePartialPayment
    rw [if_pos h]
  · intro st amount h
    unfold ProfileLedger.handlePartialPayment
    by_cases h0 : amount ≤ 0
    · rw [if_pos h0]
    · rw [if_neg h0, if_pos h]
  · intro st amount hnodup hpos hle
    have h1 : ¬ (amount ≤ 0) := not_le.mpr hpos
    have h2 : ¬ (ProfileLedger.totalDebt st < amount) := not_lt.mpr hle
    have hperm : (ProfileLedger.debtSorted st).Perm
        (st.filter fun p => decide (0 < p.debt_amount)) :=
      List.perm_insertionSort _ _
    have hSsub : ∀ p ∈ ProfileLedger.debtSorted st, p ∈ st := fun p hp =>
      List.mem_of_mem_filter (hperm.mem_iff.mp hp)
    have hSpos : ∀ p ∈ ProfileLedger.debtSorted st, 0 < p.debt_amount := by
      intro p hp
      exact of_decide_eq_true (List.mem_filter.mp (hperm.mem_iff.mp hp)).2
    have hndS : ((ProfileLedger.debtSorted st).map fun p => p.id).Nodup := by
      have hsub : ((st.filter fun p => decide (0 < p.debt_amount)).map
          fun p => p.id).Sublist (st.map fun p => p.id) :=
        (List.filter_sublist st).map _
      exact ((hperm.map fun p => p.id).nodup_iff).mpr (hsub.nodup hnodup)
    have hsum : ((ProfileLedger.debtSorted st).map fun p => p.debt_amount).sum
        = ((st.filter fun p => decide (0 < p.debt_amount)).map
            fun p => p.debt_amount).sum :=
      (hperm.map _).sum_eq
    have hminamt : min amount
        ((ProfileLedger.debtSorted st).map fun p => p.debt_amount).sum
        = amount := by
      apply min_eq_left
      rw [hsum]
      exact le_trans hle (totalDebt_le_posSum st)
    have hok : ProfileLedger.handlePartialPayment st amount
        = .ok (ProfileLedger.applyPayOff
            (ProfileLedger.payOff amount (ProfileLedger.debtSorted st)) st) := by
      unfold ProfileLedger.handlePartialPayment
      rw [if_neg h1, if_neg h2]
    have hndups : ((ProfileLedger.payOff amount
        (ProfileLedger.debtSorted st)).map fun u => u.1).Nodup :=
      ((payOff_walks_oldest_first amount _).sublist).nodup hndS
    refine ⟨_, hok, ?_, ?_, payOff_walks_oldest_first amount _, ?_, ?_⟩
    · rw [applyPayOff_totalDebt (ProfileLedger.debtSorted st) st amount
        (le_of_lt hpos) hSsub hSpos hndS hnodup, hminamt]
    · rw [applyPayOff_eq_map]
      exact List.length_map _ _
    · intro i hi hnot
      rw [applyPayOff_eq_map, getD_map_of_lt _ st i hi defaultRow defaultRow]
      exact payRow_not_mem _ _ hnot
    · intro i hi hmem
      rw [applyPayOff_eq_map, getD_map_of_lt _ st i hi defaultRow defaultRow]
      obtain ⟨u, hu, huid⟩ := List.mem_map.mp hmem
      obtain ⟨pre, post, hdecomp⟩ := List.append_of_mem hu
      have hnd3 : ((pre ++ u :: post).map fun v => v.1).Nodup :=
        hdecomp ▸ hndups
      rw [List.map_append, List.map_cons] at hnd3
      have hmid := (List.nodup_cons.mp (List.nodup_middle.mp hnd3)).1
      have hprem : (st.getD i defaultRow).id ∉ pre.map fun v => v.1 := by
        rw [← huid]
        intro hc
        exact hmid (List.mem_append.mpr (Or.inl hc))
      have hpostm : (st.getD i defaultRow).id ∉ post.map fun v => v.1 := by
        rw [← huid]
        intro hc
        exact hmid (List.mem_append.mpr (Or.inr hc))
      have hrow : ProfileLedger.payRow
          (ProfileLedger.payOff amount (ProfileLedger.debtSorted st))
          (st.getD i defaultRow)
          = { st.getD i defaultRow with
              debt_amount := u.2.1, status := u.2.2 } := by
        rw [hdecomp]
        exact payRow_single pre post u _ hprem hpostm huid.symm
      rw [hrow]
      obtain ⟨q, hqS, hqid, hq0, hqle, hqstat⟩ :=
        payOff_entry_char amount _ hSpos u hu
      have hq_st : q ∈ st := hSsub q hqS
      have hr_mem : st.getD i defaultRow ∈ st := getD_mem_of_lt st i hi defaultRow
      have hqeq : q = st.getD i defaultRow :=
        List.inj_on_of_nodup_map hnodup hq_st hr_mem (by rw [← hqid, huid])
      rw [hqeq] at hqle hqstat
      exact ⟨hq0, hqle, hqstat, rfl, rfl, rfl⟩
  · have hm1 : min (60 : ℚ) 50 = 50 := by decide
    have hm2 : min (10 : ℚ) 30 = 10 := by decide
    have hs4 : ¬ ((60 : ℚ) ≤ 0) := by norm_num
    have ht : ProfileLedger.totalDebt [rowDebtFifty, rowDebtThirty] = 80 := by
      simp [ProfileLedger.totalDebt, rowDebtFifty, rowDebtThirty]
      norm_num
    have hsort : ProfileLedger.debtSorted [rowDebtFifty, rowDebtThirty]
        = [rowDebtFifty, rowDebtThirty] := by decide
    have hpay : ProfileLedger.payOff 60 [rowDebtFifty, rowDebtThirty]
        = [(1, (0 : ℚ), PayStatus.paid), (2, (20 : ℚ), PayStatus.unpaid)] := by
      rw [payOff_cons, if_neg hs4]
      have h50 : rowDebtFifty.debt_amount = 50 := rfl
      rw [h50, hm1]
      norm_num
      rw [payOff_cons]
      have h30 : rowDebtThirty.debt_amount = 30 := rfl
      rw [h30, hm2]
      norm_num
      exact ⟨rfl, ⟨rfl, rfl⟩, rfl⟩
    have happly : ProfileLedger.applyPayOff
        [(1, (0 : ℚ), PayStatus.paid), (2, (20 : ℚ), PayStatus.unpaid)]
        [rowDebtFifty, rowDebtThirty]
        = [{ rowDebtFifty with debt_amount := 0, status := .paid },
           { rowDebtThirty with debt_amount := 20 }] := by decide
    unfold ProfileLedger.handlePartialPayment
    rw [if_neg hs4, if_neg (by rw [ht]; norm_num), hsort, hpay, happly]

/-- Claim C2 witness: a non-positive settlement amount is rejected. -/
theorem C2_settle_partial_spec_witness :
    ProfileLedger.handlePartialPayment [] (-1) = .error .invalidAmount := by
  exact C2_settle_partial_spec.1 [] (-1) (by norm_num)

section RolloverLemmas

/-- A row is in `paymentsFor l c d` iff it is in `l` with that child and
date. -/
theorem mem_paymentsFor {r : PaymentRow} {l : List PaymentRow} {c d : Nat} :
    r ∈ paymentsFor l c d ↔ r ∈ l ∧ r.child_id = c ∧ r.payment_date = d := by
  simp [paymentsFor, List.mem_filter]

/-- The sequential unpaid updates act rowwise. -/
theorem applyUnpaid_eq_map (ups : List (Nat × ℚ)) (l : List PaymentRow) :
    Reset.applyUnpaid ups l = l.map (Reset.applyUnpaidRow ups) := by
  unfold Reset.applyUnpaid Reset.applyUnpaidRow
  exact foldl_map_comm _ ups l

/-- Unfolding `applyUnpaidRow` one update at a time. -/
theorem applyUnpaidRow_cons (u : Nat × ℚ) (rest : List (Nat × ℚ))
    (r : PaymentRow) :
    Reset.applyUnpaidRow (u :: rest) r
      = Reset.applyUnpaidRow rest
          (if r.id = u.1 then
            { r with status := .unpaid, debt_amount := u.2,
                     note := some Reset.autoUnpaidNote }
           else r) := rfl

/-- `applyUnpaidRow` over an appended update list. -/
theorem applyUnpaidRow_append (l₁ l₂ : List (Nat × ℚ)) (r : PaymentRow) :
    Reset.applyUnpaidRow (l₁ ++ l₂) r
      = Reset.applyUnpaidRow l₂ (Reset.applyUnpaidRow l₁ r) := by
  unfold Reset.applyUnpaidRow
  rw [List.foldl_append]

/-- The unpaid updates never change a row's identity fields or attendance. -/
theorem applyUnpaidRow_keeps (ups : List (Nat × ℚ)) (r : PaymentRow) :
    (Reset.applyUnpaidRow ups r).id = r.id ∧
    (Reset.applyUnpaidRow ups r).child_id = r.child_id ∧
    (Reset.applyUnpaidRow ups r).payment_date = r.payment_date ∧
    (Reset.applyUnpaidRow ups r).attendance_status = r.attendance_status := by
  induction ups generalizing r with
  | nil => exact ⟨rfl, rfl, rfl, rfl⟩
  | cons u rest ih =>
    rw [applyUnpaidRow_cons]
    by_cases h : r.id = u.1
    · rw [if_pos h]
      exact ih _
    · rw [if_neg h]
      exact ih r

/-- A row whose id never occurs in the worklist is unchanged. -/
theorem applyUnpaidRow_not_mem (ups : List (Nat × ℚ)) (r : PaymentRow)
    (h : r.id ∉ ups.map fun u => u.1) : Reset.applyUnpaidRow ups r = r := by
  induction ups with
  | nil => rfl
  | cons u rest ih =>
    simp only [List.map_cons, List.mem_cons, not_or] at h
    rw [applyUnpaidRow_cons, if_neg h.1]
    exact ih h.2

/-- A row hit by exactly one worklist entry takes exactly that update. -/
theorem applyUnpaidRow_single (pre post : List (Nat × ℚ)) (u : Nat × ℚ)
    (r : PaymentRow)
    (hpre : r.id ∉ pre.map fun v => v.1)
    (hpost : r.id ∉ post.map fun v => v.1)
    (hu : r.id = u.1) :
    Reset.applyUnpaidRow (pre ++ u :: post) r
      = { r with status := .unpaid, debt_amount := u.2,
                 note := some Reset.autoUnpaidNote } := by
  rw [applyUnpaidRow_append, applyUnpaidRow_not_mem pre r hpre,
    applyUnpaidRow_cons, if_pos hu]
  exact applyUnpaidRow_not_mem post _ hpost

/-- `paymentsFor` commutes with the unpaid updates. -/
theorem paymentsFor_applyUnpaid (ups : List (Nat × ℚ)) (l : List PaymentRow)
    (c d : Nat) :
    paymentsFor (Reset.applyUnpaid ups l) c d
      = (paymentsFor l c d).map (Reset.applyUnpaidRow ups) := by
  rw [applyUnpaid_eq_map]
  exact paymentsFor_map _
    (fun r => ⟨(applyUnpaidRow_keeps ups r).2.1,
      (applyUnpaidRow_keeps ups r).2.2.1⟩) l c d

/-- Unfolding the absent-row batch insert. -/
theorem insertAbsent_cons (n target x : Nat) (rest : List Nat) :
    Reset.insertAbsent n target (x :: rest)
      = Reset.mkAbsentRow x target n :: Reset.insertAbsent (n + 1) target rest :=
  rfl

/-- The batch insert contributes no rows for a child not on the absent
list. -/
theorem paymentsFor_insertAbsent_not_mem (target c d : Nat) :
    ∀ (cids : List Nat) (n : Nat), c ∉ cids →
      paymentsFor (Reset.insertAbsent n target cids) c d = [] := by
  intro cids
  induction cids with
  | nil =>
    intro n _
    rfl
  | cons x rest ih =>
    intro n h
    rw [insertAbsent_cons]
    show List.filter _ (_ :: _) = _
    rw [List.filter_cons]
    have hp : ¬ ((Reset.mkAbsentRow x target n).child_id == c
        && (Reset.mkAbsentRow x target n).payment_date == d) = true := by
      intro hcontra
      obtain ⟨h1, _⟩ := Bool.and_eq_true _ _ |>.mp hcontra
      have hcx : c ≠ x := fun he => h (he ▸ List.mem_cons_self x rest)
      exact hcx.symm (eq_of_beq h1)
    rw [if_neg hp]
    exact ih (n + 1) (fun hm => h (List.mem_cons_of_mem x hm))

/-- The batch insert contributes exactly one absent row for a child on the
(duplicate-free) absent list, with an id at least the starting counter. -/
theorem paymentsFor_insertAbsent_mem (target c : Nat) :
    ∀ (cids : List Nat) (n : Nat), cids.Nodup → c ∈ cids →
      ∃ idv, n ≤ idv ∧
        paymentsFor (Reset.insertAbsent n target cids) c target
          = [Reset.mkAbsentRow c target idv] := by
  intro cids
  induction cids with
  | nil =>
    intro n _ hc
    cases hc
  | cons x rest ih =>
    intro n hnd hc
    obtain ⟨hx, hndr⟩ := List.nodup_cons.mp hnd
    rw [insertAbsent_cons]
    show ∃ idv, n ≤ idv ∧ List.filter _ (_ :: _) = _
    rcases List.mem_cons.mp hc with he | ht
    · subst he
      have hp : ((Reset.mkAbsentRow c target n).child_id == c
          && (Reset.mkAbsentRow c target n).payment_date == target) = true := by
        rw [Bool.and_eq_true]
        exact ⟨beq_iff_eq.mpr rfl, beq_iff_eq.mpr rfl⟩
      have hrest := paymentsFor_insertAbsent_not_mem target c target rest
        (n + 1) hx
      refine ⟨n, le_refl n, ?_⟩
      rw [List.filter_cons, if_pos hp]
      rw [show List.filter _ (Reset.insertAbsent (n + 1) target rest) = [] from hrest]
    · have hcx : c ≠ x := fun he => hx (he ▸ ht)
      have hp : ¬ ((Reset.mkAbsentRow x target n).child_id == c
          && (Reset.mkAbsentRow x target n).payment_date == target) = true := by
        intro hcontra
        obtain ⟨h1, _⟩ := Bool.and_eq_true _ _ |>.mp hcontra
        exact hcx.symm (eq_of_beq h1)
      obtain ⟨idv, hle, heq⟩ := ih (n + 1) hndr ht
      refine ⟨idv, le_trans (Nat.le_succ n) hle, ?_⟩
      rw [List.filter_cons, if_neg hp]
      exact heq

/-- The absent decision on an empty lookup. -/
theorem absentDecision_nil (pays : List PaymentRow) (t : Nat) (c : ChildRow)
    (h : paymentsFor pays c.id t = []) :
    Reset.rolloverAbsentDecision pays t c = some c.id := by
  unfold Reset.rolloverAbsentDecision
  rw [h]

/-- The absent decision on a non-empty lookup. -/
theorem absentDecision_cons (pays : List PaymentRow) (t : Nat) (c : ChildRow)
    (a : PaymentRow) (rest : List PaymentRow)
    (h : paymentsFor pays c.id t = a :: rest) :
    Reset.rolloverAbsentDecision pays t c = none := by
  unfold Reset.rolloverAbsentDecision
  rw [h]

/-- The unpaid decision on an empty lookup. -/
theorem unpaidDecision_nil (pays : List PaymentRow) (t : Nat) (c : ChildRow)
    (h : paymentsFor pays c.id t = []) :
    Reset.rolloverUnpaidDecision pays t c = none := by
  unfold Reset.rolloverUnpaidDecision
  rw [h]

/-- The unpaid decision on a singleton lookup. -/
theorem unpaidDecision_single (pays : List PaymentRow) (t : Nat) (c : ChildRow)
    (r : PaymentRow) (h : paymentsFor pays c.id t = [r]) :
    Reset.rolloverUnpaidDecision pays t c
      = (if r.attendance_status = .present ∧ r.status = .pending then
          some (r.id, c.payment_amount)
         else none) := by
  unfold Reset.rolloverUnpaidDecision
  rw [h]

/-- The unpaid decision on a duplicated lookup (the child is skipped). -/
theorem unpaidDecision_many (pays : List PaymentRow) (t : Nat) (c : ChildRow)
    (a b : PaymentRow) (rest : List PaymentRow)
    (h : paymentsFor pays c.id t = a :: b :: rest) :
    Reset.rolloverUnpaidDecision pays t c = none := by
  unfold Reset.rolloverUnpaidDecision
  rw [h]

/-- A child with no record for the target date is put on the absent list. -/
theorem mem_absentList (children : List ChildRow) (pays : List PaymentRow)
    (t : Nat) (c : ChildRow) (hc : c ∈ children)
    (hl : paymentsFor pays c.id t = []) :
    c.id ∈ Reset.absentList children pays t := by
  apply List.mem_filterMap.mpr
  exact ⟨c, hc, absentDecision_nil pays t c hl⟩

/-- Membership on the absent list certifies an empty lookup for some child
with that id. -/
theorem of_mem_absentList (children : List ChildRow) (pays : List PaymentRow)
    (t x : Nat) (h : x ∈ Reset.absentList children pays t) :
    ∃ c', c' ∈ children ∧ c'.id = x ∧ paymentsFor pays c'.id t = [] := by
  obtain ⟨c', hc', hf⟩ := List.mem_filterMap.mp h
  cases hl : paymentsFor pays c'.id t with
  | nil =>
    rw [absentDecision_nil pays t c' hl] at hf
    exact ⟨c', hc', Option.some.inj hf, hl⟩
  | cons a t' =>
    rw [absentDecision_cons pays t c' a t' hl] at hf
    cases hf

/-- The absent list is a sublist of the children's id list. -/
theorem absentList_sublist (children : List ChildRow) (pays : List PaymentRow)
    (t : Nat) :
    (Reset.absentList children pays t).Sublist (children.map fun c => c.id) := by
  induction children with
  | nil => simp [Reset.absentList]
  | cons c rest ih =>
    show (List.filterMap _ (c :: rest)).Sublist _
    rw [List.filterMap_cons, List.map_cons]
    cases hf : Reset.rolloverAbsentDecision pays t c with
    | none => exact List.Sublist.cons c.id ih
    | some x =>
      have hx : x = c.id := by
        cases hl : paymentsFor pays c.id t with
        | nil =>
          rw [absentDecision_nil pays t c hl] at hf
          exact (Option.some.inj hf).symm
        | cons a t' =>
          rw [absentDecision_cons pays t c a t' hl] at hf
          cases hf
      subst hx
      exact List.Sublist.cons₂ c.id ih

/-- Every worklist entry comes from a child whose unique record matched the
present/pending condition. -/
theorem unpaidList_entry (children : List ChildRow) (pays : List PaymentRow)
    (t : Nat) :
    ∀ u ∈ Reset.unpaidList children pays t, ∃ c' r', c' ∈ children ∧
      paymentsFor pays c'.id t = [r'] ∧ r'.attendance_status = .present ∧
      r'.status = .pending ∧ u = (r'.id, c'.payment_amount) := by
  intro u hu
  obtain ⟨c', hc', hf⟩ := List.mem_filterMap.mp hu
  cases hl : paymentsFor pays c'.id t with
  | nil =>
    rw [unpaidDecision_nil pays t c' hl] at hf
    cases hf
  | cons a rest =>
    cases rest with
    | nil =>
      rw [unpaidDecision_single pays t c' a hl] at hf
      by_cases hcond : a.attendance_status = .present ∧ a.status = .pending
      · rw [if_pos hcond] at hf
        exact ⟨c', a, hc', hl, hcond.1, hcond.2, (Option.some.inj hf).symm⟩
      · rw [if_neg hcond] at hf
        cases hf
    | cons b rest2 =>
      rw [unpaidDecision_many pays t c' a b rest2 hl] at hf
      cases hf

/-- The worklist ids are pairwise distinct given distinct child ids and
distinct payment ids. -/
theorem unpaidList_ids_nodup (children : List ChildRow)
    (pays : List PaymentRow) (t : Nat)
    (hch : (children.map fun c => c.id).Nodup)
    (hpay : (pays.map fun r => r.id).Nodup) :
    ((Reset.unpaidList children pays t).map fun u => u.1).Nodup := by
  induction children with
  | nil => simp [Reset.unpaidList]
  | cons c rest ih =>
    rw [List.map_cons] at hch
    obtain ⟨hc1, hc2⟩ := List.nodup_cons.mp hch
    show ((List.filterMap (Reset.rolloverUnpaidDecision pays t)
        (c :: rest)).map fun u => u.1).Nodup
    rw [List.filterMap_cons]
    cases hf : Reset.rolloverUnpaidDecision pays t c with
    | none => exact ih hc2
    | some u =>
      rw [List.map_cons]
      apply List.nodup_cons.mpr
      refine ⟨?_, ih hc2⟩
      intro hmem
      obtain ⟨v, hv, hveq⟩ := List.mem_map.mp hmem
      obtain ⟨c'', r'', hc'', hl'', _, _, hveq2⟩ :=
        unpaidList_entry rest pays t v hv
      -- the head entry u comes from c itself
      cases hl : paymentsFor pays c.id t with
      | nil =>
        rw [unpaidDecision_nil pays t c hl] at hf
        cases hf
      | cons a rest1 =>
        cases rest1 with
        | nil =>
          rw [unpaidDecision_single pays t c a hl] at hf
          by_cases hcond : a.attendance_status = .present ∧ a.status = .pending
          · rw [if_pos hcond] at hf
            have hu : u = (a.id, c.payment_amount) := (Option.some.inj hf).symm
            -- v.1 = u.1 = a.id; v = (r''.id, _); so r''.id = a.id
            have hra : r''.id = a.id := by
              have h1 : v.1 = r''.id := by rw [hveq2]
              have h2 : v.1 = u.1 := hveq
              rw [h1] at h2
              rw [hu] at h2
              exact h2
            have ha_mem : a ∈ pays :=
              (mem_paymentsFor.mp (hl ▸ List.mem_singleton.mpr rfl)).1
            have hr_mem : r'' ∈ pays :=
              (mem_paymentsFor.mp
                (hl'' ▸ List.mem_singleton.mpr rfl)).1
            have hreq : r'' = a :=
              List.inj_on_of_nodup_map hpay hr_mem ha_mem hra
            have ha_child : a.child_id = c.id :=
              (mem_paymentsFor.mp (hl ▸ List.mem_singleton.mpr rfl)).2.1
            have hr_child : r''.child_id = c''.id :=
              (mem_paymentsFor.mp
                (hl'' ▸ List.mem_singleton.mpr rfl)).2.1
            apply hc1
            have : c''.id = c.id := by
              rw [← hr_child, hreq, ha_child]
            exact this ▸ List.mem_map_of_mem (fun x => x.id) hc''
          · rw [if_neg hcond] at hf
            cases hf
        | cons b rest2 =>
          rw [unpaidDecision_many pays t c a b rest2 hl] at hf
          cases hf

/-- The rollover state in worklist form. -/
theorem rollover_eq (s : Store) (target : Nat) :
    Reset.rollover s target
      = { s with
          payments := Reset.applyUnpaid
            (Reset.unpaidList s.children s.payments target)
            (s.payments ++ Reset.insertAbsent s.nextId target
              (Reset.absentList s.children s.payments target))
          nextId := s.nextId
            + (Reset.absentList s.children s.payments target).length } := rfl

/-- One rollover run, seen through a single child's lookup: a child with no
record gets exactly one synthetic absent row; a child whose unique record is
present/pending gets that record closed out to unpaid with the child's
current fee as debt; a child whose unique record is anything else keeps it
unchanged; duplicated records stay duplicated (the child is skipped). -/
theorem rollover_lookup (s : Store) (target : Nat)
    (hch : (s.children.map fun c => c.id).Nodup)
    (hpay : (s.payments.map fun r => r.id).Nodup)
    (hidlt : ∀ r ∈ s.payments, r.id < s.nextId)
    (c : ChildRow) (hc : c ∈ s.children) :
    (paymentsFor s.payments c.id target = [] →
      ∃ idv, s.nextId ≤ idv ∧
        paymentsFor (Reset.rollover s target).payments c.id target
          = [Reset.mkAbsentRow c.id target idv]) ∧
    (∀ r, paymentsFor s.payments c.id target = [r] →
      r.attendance_status = .present → r.status = .pending →
      paymentsFor (Reset.rollover s target).payments c.id target
        = [{ r with status := .unpaid, debt_amount := c.payment_amount,
                    note := some Reset.autoUnpaidNote }]) ∧
    (∀ r, paymentsFor s.payments c.id target = [r] →
      ¬ (r.attendance_status = .present ∧ r.status = .pending) →
      paymentsFor (Reset.rollover s target).payments c.id target = [r]) ∧
    (∀ a b rest2, paymentsFor s.payments c.id target = a :: b :: rest2 →
      ∃ a' b' rest2',
        paymentsFor (Reset.rollover s target).payments c.id target
          = a' :: b' :: rest2') := by
  have hups_lt : ∀ u ∈ Reset.unpaidList s.children s.payments target,
      u.1 < s.nextId := by
    intro u hu
    obtain ⟨c', r', _, hl', _, _, hueq⟩ :=
      unpaidList_entry s.children s.payments target u hu
    have hr_mem : r' ∈ s.payments :=
      (mem_paymentsFor.mp (hl' ▸ List.mem_singleton.mpr rfl)).1
    rw [hueq]
    exact hidlt r' hr_mem
  have hrw : paymentsFor (Reset.rollover s target).payments c.id target
      = (paymentsFor s.payments c.id target
          ++ paymentsFor (Reset.insertAbsent s.nextId target
              (Reset.absentList s.children s.payments target)) c.id target).map
          (Reset.applyUnpaidRow (Reset.unpaidList s.children s.payments target)) := by
    rw [rollover_eq]
    show paymentsFor (Reset.applyUnpaid _ _) c.id target = _
    rw [paymentsFor_applyUnpaid, paymentsFor_append]
  refine ⟨?_, ?_, ?_, ?_⟩
  · intro hl
    have habs : c.id ∈ Reset.absentList s.children s.payments target :=
      mem_absentList s.children s.payments target c hc hl
    have hnd : (Reset.absentList s.children s.payments target).Nodup :=
      (absentList_sublist s.children s.payments target).nodup hch
    obtain ⟨idv, hle, hins⟩ := paymentsFor_insertAbsent_mem target c.id
      (Reset.absentList s.children s.payments target) s.nextId hnd habs
    refine ⟨idv, hle, ?_⟩
    rw [hrw, hl, hins, List.nil_append, List.map_singleton]
    congr 1
    apply applyUnpaidRow_not_mem
    intro hmem
    obtain ⟨u, hu, hueq⟩ := List.mem_map.mp hmem
    have := hups_lt u hu
    rw [hueq] at this
    show False
    have : (Reset.mkAbsentRow c.id target idv).id < s.nextId := this
    have hidv : idv < s.nextId := this
    exact absurd hle (not_le.mpr hidv)
  · intro r hl hatt hstat
    have hnoabs : c.id ∉ Reset.absentList s.children s.payments target := by
      intro hmem
      obtain ⟨c', hc', hcid, hl'⟩ :=
        of_mem_absentList s.children s.payments target c.id hmem
      rw [hcid, hl] at hl'
      cases hl'
    have hins := paymentsFor_insertAbsent_not_mem target c.id target
      (Reset.absentList s.children s.payments target) s.nextId hnoabs
    rw [hrw, hl, hins, List.append_nil, List.map_singleton]
    have hu_mem : (r.id, c.payment_amount)
        ∈ Reset.unpaidList s.children s.payments target := by
      apply List.mem_filterMap.mpr
      refine ⟨c, hc, ?_⟩
      rw [unpaidDecision_single s.payments target c r hl, if_pos ⟨hatt, hstat⟩]
    have hndups : ((Reset.unpaidList s.children s.payments target).map
        fun u => u.1).Nodup :=
      unpaidList_ids_nodup s.children s.payments target hch hpay
    obtain ⟨pre, post, hdecomp⟩ := List.append_of_mem hu_mem
    rw [hdecomp]
    rw [hdecomp] at hndups
    rw [List.map_append, List.map_cons] at hndups
    have hmid := (List.nodup_cons.mp (List.nodup_middle.mp hndups)).1
    congr 1
    apply applyUnpaidRow_single
    · intro hcmem
      exact hmid (List.mem_append.mpr (Or.inl hcmem))
    · intro hcmem
      exact hmid (List.mem_append.mpr (Or.inr hcmem))
    · rfl
  · intro r hl hcond
    have hnoabs : c.id ∉ Reset.absentList s.children s.payments target := by
      intro hmem
      obtain ⟨c', hc', hcid, hl'⟩ :=
        of_mem_absentList s.children s.payments target c.id hmem
      rw [hcid, hl] at hl'
      cases hl'
    have hins := paymentsFor_insertAbsent_not_mem target c.id target
      (Reset.absentList s.children s.payments target) s.nextId hnoabs
    rw [hrw, hl, hins, List.append_nil, List.map_singleton]
    congr 1
    apply applyUnpaidRow_not_mem
    intro hmem
    obtain ⟨u, hu, hueq⟩ := List.mem_map.mp hmem
    obtain ⟨c'', r'', hc'', hl'', hatt'', hstat'', hueq2⟩ :=
      unpaidList_entry s.children s.payments target u hu
    have hid : r''.id = r.id := by
      have h1 : u.1 = r''.id := by rw [hueq2]
      rw [h1] at hueq
      exact hueq
    have hr_mem : r ∈ s.payments :=
      (mem_paymentsFor.mp (hl ▸ List.mem_singleton.mpr rfl)).1
    have hr''_mem : r'' ∈ s.payments :=
      (mem_paymentsFor.mp (hl'' ▸ List.mem_singleton.mpr rfl)).1
    have hreq : r'' = r :=
      List.inj_on_of_nodup_map hpay hr''_mem hr_mem hid
    rw [hreq] at hatt'' hstat''
    exact hcond ⟨hatt'', hstat''⟩
  · intro a b rest2 hl
    have hnoabs : c.id ∉ Reset.absentList s.children s.payments target := by
      intro hmem
      obtain ⟨c', hc', hcid, hl'⟩ :=
        of_mem_absentList s.children s.payments target c.id hmem
      rw [hcid, hl] at hl'
      cases hl'
    have hins := paymentsFor_insertAbsent_not_mem target c.id target
      (Reset.absentList s.children s.payments target) s.nextId hnoabs
    rw [hrw, hl, hins, List.append_nil]
    exact ⟨_, _, _, rfl⟩

end RolloverLemmas

/-- Claim C3: running the rollover twice in succession for the same target
date equals running it once — the second run inserts nothing and updates
nothing (no duplicate absent records, no double charge), given the database
invariants: distinct child ids, distinct payment ids, and ids below the id
counter. -/
theorem C3_rollover_idempotent (s : Store) (target : Nat)
    (hch : (s.children.map fun c => c.id).Nodup)
    (hpay : (s.payments.map fun r => r.id).Nodup)
    (hidlt : ∀ r ∈ s.payments, r.id < s.nextId) :
    Reset.rollover (Reset.rollover s target) target
      = Reset.rollover s target := by
  have hlk := rollover_lookup s target hch hpay hidlt
  have hchildren : (Reset.rollover s target).children = s.children := rfl
  have habs2 : Reset.absentList (Reset.rollover s target).children
      (Reset.rollover s target).payments target = [] := by
    rw [hchildren]
    unfold Reset.absentList
    rw [List.filterMap_eq_nil_iff]
    intro c hc
    rcases hcase : paymentsFor s.payments c.id target with _ | ⟨r, rest⟩
    · obtain ⟨idv, _, heq⟩ := (hlk c hc).1 hcase
      exact absentDecision_cons _ _ _ _ _ heq
    · cases rest with
      | nil =>
        by_cases hcond : r.attendance_status = .present ∧ r.status = .pending
        · have heq := (hlk c hc).2.1 r hcase hcond.1 hcond.2
          exact absentDecision_cons _ _ _ _ _ heq
        · have heq := (hlk c hc).2.2.1 r hcase hcond
          exact absentDecision_cons _ _ _ _ _ heq
      | cons b rest2 =>
        obtain ⟨a', b', r2', heq⟩ := (hlk c hc).2.2.2 r b rest2 hcase
        exact absentDecision_cons _ _ _ _ _ heq
  have hunp2 : Reset.unpaidList (Reset.rollover s target).children
      (Reset.rollover s target).payments target = [] := by
    rw [hchildren]
    unfold Reset.unpaidList
    rw [List.filterMap_eq_nil_iff]
    intro c hc
    rcases hcase : paymentsFor s.payments c.id target with _ | ⟨r, rest⟩
    · obtain ⟨idv, _, heq⟩ := (hlk c hc).1 hcase
      rw [unpaidDecision_single _ _ _ _ heq, if_neg]
      intro hcontra
      exact AttStatus.noConfusion hcontra.1
    · cases rest with
      | nil =>
        by_cases hcond : r.attendance_status = .present ∧ r.status = .pending
        · have heq := (hlk c hc).2.1 r hcase hcond.1 hcond.2
          rw [unpaidDecision_single _ _ _ _ heq, if_neg]
          intro hcontra
          exact PayStatus.noConfusion hcontra.2
        · have heq := (hlk c hc).2.2.1 r hcase hcond
          rw [unpaidDecision_single _ _ _ _ heq, if_neg hcond]
      | cons b rest2 =>
        obtain ⟨a', b', r2', heq⟩ := (hlk c hc).2.2.2 r b rest2 hcase
        exact unpaidDecision_many _ _ _ _ _ _ heq
  rw [rollover_eq (Reset.rollover s target) target, habs2, hunp2]
  rw [show Reset.insertAbsent (Reset.rollover s target).nextId target
    ([] : List Nat) = [] from rfl]
  rw [List.append_nil]
  rfl

/-- Claim C3 witness: idempotence on the fixture store with one
present/pending record. -/
theorem C3_rollover_idempotent_witness :
    Reset.rollover (Reset.rollover storeWithPresent 5) 5
      = Reset.rollover storeWithPresent 5 := by
  exact C3_rollover_idempotent storeWithPresent 5 (by decide) (by decide)
    (by decide)

/-- Claim C4 counterexample: a present/pending record whose stored
`amount` (amountDue) is 0 — reachable by marking absent and re-marking
present, which keeps the old amount — is closed out by the rollover with
`debt_amount = 150`, the child's current fee, not the record's
`amountDue`. -/
theorem C4_rollover_debt_counterexample :
    ((Reset.rollover storeFeeDrift 5).payments.getD 0 defaultRow).debt_amount
        = 150 ∧
    ((Reset.rollover storeFeeDrift 5).payments.getD 0 defaultRow).status
        = .unpaid ∧
    (storeFeeDrift.payments.getD 0 defaultRow).amount = 0 ∧
    ((Reset.rollover storeFeeDrift 5).payments.getD 0 defaultRow).debt_amount
        ≠ (storeFeeDrift.payments.getD 0 defaultRow).amount := by
  refine ⟨by decide, by decide, by decide, by decide⟩

/-- Claim C4 (amended): one rollover run for target date `D`, under the
database invariants, acts per child as follows.  A child with no record for
`D` gets exactly one synthetic row: absent, `amountDue = 0`,
`debtRemaining = 0`, terminal `status = unpaid`, and a diagnostic note that
differs from the explicit-absence note.  A child whose unique record for `D`
is present/pending has it transitioned to `status = unpaid` with
`debtRemaining` set to the child's current fee (`payment_amount`) — which
equals `amountDue` only when the record was created at that same fee — and
the automatic note.  Every other existing record is left untouched. -/
theorem C4_rollover_per_child_amended (s : Store) (target : Nat)
    (hch : (s.children.map fun c => c.id).Nodup)
    (hpay : (s.payments.map fun r => r.id).Nodup)
    (hidlt : ∀ r ∈ s.payments, r.id < s.nextId) :
    (∀ c ∈ s.children, paymentsFor s.payments c.id target = [] →
      ∃ idv, paymentsFor (Reset.rollover s target).payments c.id target
          = [Reset.mkAbsentRow c.id target idv] ∧
        (Reset.mkAbsentRow c.id target idv).attendance_status = .absent ∧
        (Reset.mkAbsentRow c.id target idv).amount = 0 ∧
        (Reset.mkAbsentRow c.id target idv).debt_amount = 0 ∧
        (Reset.mkAbsentRow c.id target idv).status = .unpaid ∧
        (Reset.mkAbsentRow c.id target idv).note
          = some Reset.syntheticAbsentNote) ∧
    (∀ now : Nat, Reset.syntheticAbsentNote ≠ noteFor .absent now) ∧
    (∀ c ∈ s.children, ∀ r, paymentsFor s.payments c.id target = [r] →
      r.attendance_status = .present → r.status = .pending →
      paymentsFor (Reset.rollover s target).payments c.id target
        = [{ r with status := .unpaid, debt_amount := c.payment_amount,
                    note := some Reset.autoUnpaidNote }]) ∧
    (∀ i, i < s.payments.length →
      (¬ ∃ c, c ∈ s.children ∧
        paymentsFor s.payments c.id target = [s.payments.getD i defaultRow] ∧
        (s.payments.getD i defaultRow).attendance_status = .present ∧
        (s.payments.getD i defaultRow).status = .pending) →
      (Reset.rollover s target).payments.getD i defaultRow
        = s.payments.getD i defaultRow) := by
  have hlk := rollover_lookup s target hch hpay hidlt
  refine ⟨?_, ?_, ?_, ?_⟩
  · intro c hc hl
    obtain ⟨idv, _, heq⟩ := (hlk c hc).1 hl
    exact ⟨idv, heq, rfl, rfl, rfl, rfl, rfl⟩
  · intro now
    show Reset.syntheticAbsentNote ≠ "Child did not report"
    decide
  · intro c hc r hl hatt hstat
    exact (hlk c hc).2.1 r hl hatt hstat
  · intro i hi hnot
    have hsplit : (Reset.rollover s target).payments
        = (s.payments.map (Reset.applyUnpaidRow
            (Reset.unpaidList s.children s.payments target)))
          ++ ((Reset.insertAbsent s.nextId target
              (Reset.absentList s.children s.payments target)).map
              (Reset.applyUnpaidRow
                (Reset.unpaidList s.children s.payments target))) := by
      rw [rollover_eq]
      show Reset.applyUnpaid _ _ = _
      rw [applyUnpaid_eq_map, List.map_append]
    rw [hsplit]
    have hlen : i < (s.payments.map (Reset.applyUnpaidRow
        (Reset.unpaidList s.children s.payments target))).length := by
      rw [List.length_map]
      exact hi
    rw [List.getD_append _ _ _ _ hlen]
    rw [getD_map_of_lt _ s.payments i hi defaultRow defaultRow]
    apply applyUnpaidRow_not_mem
    intro hmem
    obtain ⟨u, hu, hueq⟩ := List.mem_map.mp hmem
    obtain ⟨c'', r'', hc'', hl'', hatt'', hstat'', hueq2⟩ :=
      unpaidList_entry s.children s.payments target u hu
    have hid : r''.id = (s.payments.getD i defaultRow).id := by
      have h1 : u.1 = r''.id := by rw [hueq2]
      rw [h1] at hueq
      exact hueq
    have hr''_mem : r'' ∈ s.payments :=
      (mem_paymentsFor.mp (hl'' ▸ List.mem_singleton.mpr rfl)).1
    have hr_mem : s.payments.getD i defaultRow ∈ s.payments :=
      getD_mem_of_lt s.payments i hi defaultRow
    have hreq : r'' = s.payments.getD i defaultRow :=
      List.inj_on_of_nodup_map hpay hr''_mem hr_mem hid
    apply hnot
    refine ⟨c'', hc'', ?_, ?_, ?_⟩
    · rw [← hreq]
      exact hl''
    · rw [← hreq]
      exact hatt''
    · rw [← hreq]
      exact hstat''

/-- Claim C4 witness: the present/pending fixture record is closed out with
the child's fee (150) as debt. -/
theorem C4_rollover_per_child_amended_witness :
    paymentsFor (Reset.rollover storeWithPresent 5).payments 0 5
      = [{ rowPresentPending with
           status := .unpaid
           debt_amount := 150
           note := some Reset.autoUnpaidNote }] := by
  exact (C4_rollover_per_child_amended storeWithPresent 5 (by decide)
    (by decide) (by decide)).2.2.1 child0 (by decide) rowPresentPending
    (by decide) (by decide) (by decide)

end Dcare
